import Mathlib

/-!
Verification of the `remote-config` crate: a stale-while-revalidate cache
coordinator (`RemoteConfig` in `src/config.rs`) together with the default
HTTP extractor (`SerdeDataExtractor::extract` in `src/data_providers/http.rs`).

The coordinator is embedded as a small-step interleaving semantics: a `Sys`
holds the shared state of one `RemoteConfig` instance (the `ArcSwap`ped
cached snapshot, the tokio mutex around `{ data_provider, revalidation_error }`
including its fair FIFO waiter queue, and an instrumentation counter of
`load_data` invocations), plus the local state of every concurrent
`load_with_time` caller.  `SystemTime` is modelled as `Nat`; the data
provider is modelled as a script mapping the index of each `load_data`
invocation to its outcome.  Machine steps are the atomic actions of
`load_with_time` between suspension points / atomic operations.
-/

set_option autoImplicit false
set_option maxHeartbeats 2000000

namespace RemoteConfig

/-- Result of a successful data load, from `DataLoadResult<T>` in
`src/data_providers/data_provider.rs`.  `SystemTime` is modelled as `Nat`. -/
structure DataLoadResult (Data : Type) where
  data : Data
  must_revalidate : Bool
  valid_until : Nat
deriving Repr, DecidableEq

/-- A recorded revalidation failure: `Arc<DataProviderError>` from
`src/config.rs` (`source` error modelled as a `Nat` code `cause`, plus the
wrap-time `timestamp`).  The field `id` models the identity of the `Arc`
allocation wrapping the error: each failed attempt allocates a fresh
`Arc::new(DataProviderError::from(err))`, so we tag it with the index of the
provider call that failed; two structurally equal `Failure`s are the same
shared instance. -/
structure Failure where
  cause : Nat
  timestamp : Nat
  id : Nat
deriving Repr, DecidableEq

/-- Return value of one `load_with_time` call
(`Result<CachedData<Data>, Arc<DataProviderError>>`): `ok` carries the
`DataLoadResult` the returned `CachedData` guard points at. -/
inductive LoadOutcome (Data : Type) where
  | ok (d : DataLoadResult Data)
  | err (f : Failure)
deriving Repr, DecidableEq

/-- Control position of one `load_with_time` caller inside the body of
`RemoteConfig::load_with_time` (src/config.rs lines 158-233):
`start` = about to `self.cached_response.load()`;
`tryLock` = found the snapshot stale, about to `self.revalidator.try_lock()`;
`awaitLock` = `try_lock` failed with `must_revalidate`, about to
`self.revalidator.lock().await`;
`queued` = suspended in the mutex FIFO;
`holdingWait` = the mutex was handed to this waiter, about to read
`revalidation_error` / `cached_response` and return;
`locked` = `try_lock` succeeded, about to check the retry backoff;
`loading callIdx` = the spawned revalidation task is executing provider call
number `callIdx` while the guard is held;
`done` = the call returned (for a caller that returned stale data early its
spawned task may still be `loading`). -/
inductive Phase where
  | start
  | tryLock
  | awaitLock
  | queued
  | holdingWait
  | locked
  | loading (callIdx : Nat)
  | done
deriving Repr, DecidableEq

/-- One caller of `load_with_time`: `time` is its `time` argument, `snap` the
snapshot it obtained from `cached_response.load()` on entry (`none` before
that), `phase` its control position and `result` its return value once
produced. -/
structure Task (Data : Type) where
  time : Nat
  snap : Option (DataLoadResult Data) := none
  phase : Phase := .start
  result : Option (LoadOutcome Data) := none
deriving Repr, DecidableEq

/-- Shared state of one `RemoteConfig` instance together with the local state
of every concurrent `load_with_time` caller.  `cached` is the `ArcSwap`ped
`cached_response`; `revalidation_error` lives behind the `revalidator` mutex;
`lockHolder` is the task currently holding that mutex and `queue` the FIFO of
tasks suspended in `lock().await` (tokio's mutex is fair: on release the lock
is handed directly to the first waiter, and `try_lock` only succeeds on a
free, waiterless mutex).  `calls` counts `load_data` invocations made so far,
`script k` gives the outcome of invocation number `k` (the provider is owned
by the mutex, so invocations are sequenced), and `now` models the wall clock
read by `SystemTime::now()`. -/
structure Sys (Data : Type) where
  retry_interval : Nat
  cached : DataLoadResult Data
  revalidation_error : Option Failure
  lockHolder : Option Nat
  queue : List Nat
  calls : Nat
  now : Nat
  script : Nat → Except Nat (DataLoadResult Data)
  tasks : Nat → Option (Task Data)

/-- Update the task table at one index. -/
def updFun {Data : Type} (f : Nat → Option (Task Data)) (tid : Nat)
    (tk : Task Data) : Nat → Option (Task Data) :=
  fun j => if j = tid then some tk else f j

/-- Drop the `revalidator` mutex guard: with waiters queued, the fair tokio
mutex hands the lock directly to the first waiter, which will resume inside
the waiter branch of `load_with_time` (phase `holdingWait`); otherwise the
mutex becomes free. -/
def releaseLock {Data : Type} (s : Sys Data) : Sys Data :=
  match s.queue with
  | [] => { s with lockHolder := none }
  | w :: rest =>
    match s.tasks w with
    | some wt =>
      { s with lockHolder := some w, queue := rest,
               tasks := (updFun s.tasks w { wt with phase := .holdingWait }) }
    | none => { s with lockHolder := some w, queue := rest }

/-- What a caller that holds the mutex in the waiter branch returns
(src/config.rs lines 169-176): the recorded shared failure if one is set,
otherwise `Ok` of the currently published snapshot. -/
def outcomeOf {Data : Type} (s : Sys Data) : LoadOutcome Data :=
  match s.revalidation_error with
  | some f => .err f
  | none => .ok s.cached

/-- The spawned revalidation body starts `guard.data_provider.load_data()`
(src/config.rs lines 198-199), consuming provider call number `s.calls`; per
lines 220-226 a caller whose stale snapshot does not mandate revalidation
already returns `Ok(CachedData(curr))` at this point while the spawned task
keeps running with the guard. -/
def spawnLoad {Data : Type} (s : Sys Data) (tid : Nat) (tk : Task Data)
    (sn : DataLoadResult Data) : Sys Data :=
  { s with calls := s.calls + 1,
           tasks := (updFun s.tasks tid
             { tk with phase := .loading s.calls,
                       result := if sn.must_revalidate then tk.result
                                 else some (.ok sn) }) }

/-- One atomic step of caller `tid`, following `RemoteConfig::load_with_time`
(src/config.rs lines 158-233).
`start`: `let curr = self.cached_response.load()`; if `curr.valid_until <
time` continue stale, else return `Ok(CachedData(curr))` (lines 159-161,
231-232).
`tryLock`: `self.revalidator.try_lock()` (line 162); on success become the
refresher (line 185); on failure either head for `lock().await` when
`curr.must_revalidate` (line 165) or return the stale snapshot (line 181).
`awaitLock`: `self.revalidator.lock().await` (line 167): acquire at once if
the mutex is free, otherwise join the FIFO.
`queued`: suspended until the lock is handed over (no autonomous step).
`holdingWait`: holding the mutex, return the recorded shared failure if any,
else the currently published snapshot (lines 169-176), then drop the guard.
`locked`: the backoff check (lines 188-196): with a recorded failure and
`time < err.timestamp + retry_interval`, return without calling the provider
(`Err(err.clone())` when `must_revalidate`, else the stale snapshot) and drop
the guard; otherwise spawn the revalidation task (line 198).
`loading k`: the provider call finishes (lines 199-217): on `Ok`, store the
new result in `cached_response`, clear `revalidation_error`, and (line 203 /
222) the awaiting caller gets `Ok` of the new value; on `Err`, wrap the error
with the current timestamp into a fresh `Arc`, record it, and the awaiting
caller gets that shared error; then the guard is dropped. -/
def stepTask {Data : Type} (s : Sys Data) (tid : Nat) : Option (Sys Data) :=
  match s.tasks tid with
  | none => none
  | some tk =>
    match tk.phase with
    | .start =>
      let sn := s.cached
      if sn.valid_until < tk.time then
        some { s with tasks := (updFun s.tasks tid
          { tk with snap := some sn, phase := .tryLock }) }
      else
        some { s with tasks := (updFun s.tasks tid
          { tk with snap := some sn, phase := .done,
                    result := some (.ok sn) }) }
    | .tryLock =>
      match tk.snap with
      | none => none
      | some sn =>
        if s.lockHolder = none then
          some { s with lockHolder := some tid,
                        tasks := (updFun s.tasks tid { tk with phase := .locked }) }
        else if sn.must_revalidate then
          some { s with tasks := (updFun s.tasks tid { tk with phase := .awaitLock }) }
        else
          some { s with tasks := (updFun s.tasks tid
            { tk with phase := .done, result := some (.ok sn) }) }
    | .awaitLock =>
      if s.lockHolder = none then
        some { s with lockHolder := some tid,
                      tasks := (updFun s.tasks tid { tk with phase := .holdingWait }) }
      else
        some { s with queue := s.queue ++ [tid],
                      tasks := (updFun s.tasks tid { tk with phase := .queued }) }
    | .queued => none
    | .holdingWait =>
      some (releaseLock { s with tasks := (updFun s.tasks tid
        { tk with phase := .done, result := some (outcomeOf s) }) })
    | .locked =>
      match tk.snap with
      | none => none
      | some sn =>
        match s.revalidation_error with
        | some f =>
          if tk.time < f.timestamp + s.retry_interval then
            some (releaseLock { s with tasks := (updFun s.tasks tid
              { tk with phase := .done,
                        result := some (if sn.must_revalidate then .err f
                                        else .ok sn) }) })
          else
            some (spawnLoad s tid tk sn)
        | none => some (spawnLoad s tid tk sn)
    | .loading k =>
      match tk.snap with
      | none => none
      | some sn =>
        match s.script k with
        | .ok r =>
          some (releaseLock
            { s with
              cached := r,
              revalidation_error := none,
              tasks := (updFun s.tasks tid
                { tk with
                  phase := .done,
                  result := if sn.must_revalidate then some (.ok r)
                            else tk.result }) })
        | .error c =>
          some (releaseLock
            { s with
              revalidation_error := some { cause := c, timestamp := s.now, id := k },
              tasks := (updFun s.tasks tid
                { tk with
                  phase := .done,
                  result := if sn.must_revalidate
                            then some (.err { cause := c, timestamp := s.now, id := k })
                            else tk.result }) })
    | .done => none

/-- A scheduler action: a step of caller `tid`, or a wall-clock tick. -/
inductive Act where
  | act (tid : Nat)
  | tick
deriving Repr, DecidableEq

/-- One system step. -/
def step {Data : Type} (s : Sys Data) (a : Act) : Option (Sys Data) :=
  match a with
  | .act tid => stepTask s tid
  | .tick => some { s with now := s.now + 1 }

/-- Run a list of scheduler actions. -/
def run {Data : Type} (s : Sys Data) : List Act → Option (Sys Data)
  | [] => some s
  | a :: rest =>
    match step s a with
    | some s1 => run s1 rest
    | none => none

/-- A freshly set-up system: cached snapshot `c0`, no recorded failure, free
mutex, `calls0` provider invocations already accounted for, and one
`load_with_time` caller (not yet started) for each entry of `times`. -/
def mkInit {Data : Type} (retry : Nat) (c0 : DataLoadResult Data)
    (now0 calls0 : Nat) (script : Nat → Except Nat (DataLoadResult Data))
    (times : List Nat) : Sys Data :=
  { retry_interval := retry, cached := c0, revalidation_error := none,
    lockHolder := none, queue := [], calls := calls0, now := now0,
    script := script,
    tasks := fun tid => (times.get? tid).map (fun t => { time := t }) }

/-- `RemoteConfig::new` (src/config.rs lines 128-145): one synchronous
`load_data` call (provider call number 0); if it fails the wrapped error is
propagated and no instance is constructed; on success the instance starts
with the fetched result as `cached_response` and `revalidation_error = None`,
with one provider call made. -/
def new {Data : Type} (retry now0 : Nat)
    (script : Nat → Except Nat (DataLoadResult Data)) (times : List Nat) :
    Except Failure (Sys Data) :=
  match script 0 with
  | .error c => .error { cause := c, timestamp := now0, id := 0 }
  | .ok d => .ok (mkInit retry d now0 1 script times)

/-- A snapshot expiring at instant 5, mandating revalidation. -/
def c2snap : DataLoadResult Nat :=
  { data := 0, must_revalidate := true, valid_until := 5 }

/-- A recorded failure whose backoff window (timestamp 4, retry interval 10)
covers the instants used in the boundary counterexample. -/
def c2fail : Failure := { cause := 7, timestamp := 4, id := 0 }

/-- Boundary state: caller 0 reads at `time = 5 = valid_until`, caller 1 at
`time = 6`; a failure is recorded and the retry interval is long, so the
stale path would surface the shared failure. -/
def c2sys : Sys Nat :=
  { retry_interval := 10, cached := c2snap, revalidation_error := some c2fail,
    lockHolder := none, queue := [], calls := 0, now := 6,
    script := fun _ => .error 9,
    tasks := fun tid => if tid = 0 then some { time := 5 } else
                        if tid = 1 then some { time := 6 } else none }

/-- A caller that reads at time 3 (fresh for a snapshot valid until 7). -/
def w2tk : Task Nat := { time := 3 }

/-- State used to instantiate the staleness-boundary theorem. -/
def w2sys : Sys Nat :=
  { retry_interval := 1,
    cached := { data := 5, must_revalidate := false, valid_until := 7 },
    revalidation_error := none, lockHolder := none, queue := [], calls := 0,
    now := 0, script := fun _ => .error 0,
    tasks := fun tid => if tid = 0 then some w2tk else none }

/-- Stale snapshot mandating revalidation, used by the backoff witness. -/
def w4snap : DataLoadResult Nat :=
  { data := 1, must_revalidate := true, valid_until := 5 }

/-- The failure recorded before the backoff witness runs. -/
def w4fail : Failure := { cause := 2, timestamp := 6, id := 0 }

/-- Caller 0 holds the lock at time 8, inside the backoff window. -/
def w4tk : Task Nat := { time := 8, snap := some w4snap, phase := .locked }

/-- State used to instantiate the backoff theorem. -/
def w4sys : Sys Nat :=
  { retry_interval := 10, cached := w4snap, revalidation_error := some w4fail,
    lockHolder := some 0, queue := [], calls := 1, now := 8,
    script := fun _ => .error 0,
    tasks := fun tid => if tid = 0 then some w4tk else none }

/-- Stale snapshot for the refresh-completion witnesses. -/
def w5snap : DataLoadResult Nat :=
  { data := 1, must_revalidate := true, valid_until := 5 }

/-- Caller 0 is executing provider call 0 while holding the lock. -/
def w5tk : Task Nat := { time := 8, snap := some w5snap, phase := .loading 0 }

/-- State whose pending provider call fails with cause 4. -/
def w5sys : Sys Nat :=
  { retry_interval := 3, cached := w5snap, revalidation_error := none,
    lockHolder := some 0, queue := [], calls := 1, now := 9,
    script := fun _ => .error 4,
    tasks := fun tid => if tid = 0 then some w5tk else none }

/-- The value published by the successful-refresh witness. -/
def w6new : DataLoadResult Nat :=
  { data := 2, must_revalidate := false, valid_until := 20 }

/-- State whose pending provider call succeeds with `w6new`. -/
def w6sys : Sys Nat :=
  { retry_interval := 3, cached := w5snap, revalidation_error := none,
    lockHolder := some 0, queue := [], calls := 1, now := 9,
    script := fun _ => .ok w6new,
    tasks := fun tid => if tid = 0 then some w5tk else none }

/-- The construction witnesses: a provider that always succeeds. -/
def w8d : DataLoadResult Nat :=
  { data := 1, must_revalidate := false, valid_until := 10 }

/-- Script whose every call returns `w8d`. -/
def w8ok : Nat → Except Nat (DataLoadResult Nat) := fun _ => .ok w8d

/-- Script whose every call fails with cause 3. -/
def w8err : Nat → Except Nat (DataLoadResult Nat) := fun _ => .error 3

/-- Phases at which the caller holds the `revalidator` mutex. -/
def Phase.owns : Phase → Bool
  | .locked => true
  | .holdingWait => true
  | .loading _ => true
  | _ => false

/-- Phases at which the call cannot yet have produced a result. -/
def Phase.noResult : Phase → Bool
  | .start => true
  | .tryLock => true
  | .awaitLock => true
  | .queued => true
  | .holdingWait => true
  | .locked => true
  | _ => false

/-- Phases of a caller inside the waiter branch of `load_with_time`. -/
def Phase.waits : Phase → Bool
  | .awaitLock => true
  | .queued => true
  | .holdingWait => true
  | _ => false

/-- A snapshot value is accounted for: it is the initially cached value or
the value returned by one of the provider calls made so far. -/
def snapProven {Data : Type} (c0 : DataLoadResult Data)
    (script : Nat → Except Nat (DataLoadResult Data)) (calls : Nat)
    (d : DataLoadResult Data) : Prop :=
  d = c0 ∨ ∃ k, k < calls ∧ script k = .ok d

/-- A failure is accounted for: it wraps the error reported by the provider
call whose index its allocation id records. -/
def failProven {Data : Type}
    (script : Nat → Except Nat (DataLoadResult Data)) (calls : Nat)
    (f : Failure) : Prop :=
  f.id < calls ∧ script f.id = .error f.cause

/-- A call outcome is accounted for by the refresh attempts made so far:
either `Ok` of a value that was published at some point, or the shared error
of one attempt. -/
def outcomeProv {Data : Type} (c0 : DataLoadResult Data)
    (script : Nat → Except Nat (DataLoadResult Data)) (calls : Nat) :
    LoadOutcome Data → Prop
  | .ok d => snapProven c0 script calls d
  | .err f => failProven script calls f

/-- Reachability invariant of the coordinator: mutex discipline (whoever is
in a lock-owning phase is the recorded holder; the FIFO holds exactly the
`queued` callers, without duplicates, and is nonempty only while the lock is
held), result discipline (no result before the call finishes or spawns; a
caller whose snapshot does not mandate revalidation never waits, and its
result can only be `Ok` of its own snapshot, already set while its spawned
attempt is still loading), and provenance (cached value, recorded failure,
caller snapshots and results all trace back to the initial value or to an
already-made provider call). -/
structure WF {Data : Type} (c0 : DataLoadResult Data) (s : Sys Data) : Prop where
  owner_holds : ∀ tid tk, s.tasks tid = some tk → tk.phase.owns = true →
    s.lockHolder = some tid
  queue_mem : ∀ tid, tid ∈ s.queue →
    ∃ tk, s.tasks tid = some tk ∧ tk.phase = .queued
  queue_nodup : s.queue.Nodup
  queue_holder : s.queue ≠ [] → s.lockHolder ≠ none
  res_none : ∀ tid tk, s.tasks tid = some tk → tk.phase.noResult = true →
    tk.result = none
  wait_mr : ∀ tid tk sn, s.tasks tid = some tk → tk.snap = some sn →
    tk.phase.waits = true → sn.must_revalidate = true
  opt_result : ∀ tid tk sn o, s.tasks tid = some tk → tk.snap = some sn →
    sn.must_revalidate = false → tk.result = some o → o = .ok sn
  opt_loading : ∀ tid tk sn k, s.tasks tid = some tk → tk.snap = some sn →
    sn.must_revalidate = false → tk.phase = .loading k →
    tk.result = some (.ok sn)
  loading_lt : ∀ tid tk k, s.tasks tid = some tk → tk.phase = .loading k →
    k < s.calls
  cached_prov : snapProven c0 s.script s.calls s.cached
  error_prov : ∀ f, s.revalidation_error = some f →
    failProven s.script s.calls f
  snap_prov : ∀ tid tk sn, s.tasks tid = some tk → tk.snap = some sn →
    snapProven c0 s.script s.calls sn
  result_prov : ∀ tid tk o, s.tasks tid = some tk → tk.result = some o →
    outcomeProv c0 s.script s.calls o

/-- The outcome a finished refresh attempt fans out: its shared failure if it
recorded one, else `Ok` of the snapshot it left published. -/
def attemptOutcome {Data : Type} (E0 : Option Failure)
    (C0 : DataLoadResult Data) : LoadOutcome Data :=
  match E0 with
  | some f => .err f
  | none => .ok C0

/-- Task `w` has finished with outcome `o`. -/
def doneWith {Data : Type} (s : Sys Data) (w : Nat) (o : LoadOutcome Data) :
    Prop :=
  ∃ tk, s.tasks w = some tk ∧ tk.phase = .done ∧ tk.result = some o

/-- Invariant of the drain of a completed refresh attempt: `q1` is the FIFO
at the instant the attempt released the gate, `E0`/`C0` the failure record
and cached snapshot it left behind.  Some list `rem` of waiters is still
pending; every member of `q1` outside `rem` has finished with the attempt's
outcome; and while `rem` is nonempty its head holds the lock in the waiter
branch, the rest of `rem` heads the FIFO (followed only by newcomers outside
`q1`), and the failure record and cached snapshot are still exactly those the
attempt left. -/
def Chain {Data : Type} (q1 : List Nat) (E0 : Option Failure)
    (C0 : DataLoadResult Data) (s : Sys Data) : Prop :=
  ∃ rem : List Nat,
    (∀ w ∈ q1, w ∉ rem → doneWith s w (attemptOutcome E0 C0)) ∧
    (rem = [] ∨ ∃ h tl, rem = h :: tl ∧
      s.revalidation_error = E0 ∧ s.cached = C0 ∧
      s.lockHolder = some h ∧
      (∃ tkh, s.tasks h = some tkh ∧ tkh.phase = .holdingWait) ∧
      ∃ qnew, s.queue = tl ++ qnew ∧ ∀ x ∈ qnew, x ∉ q1)

/-- The stale snapshot both concurrent callers of the single-flight
counterexample read: expired at 10, mandating revalidation. -/
def c1snap0 : DataLoadResult Nat :=
  { data := 0, must_revalidate := true, valid_until := 10 }

/-- Value published by the first refresh attempt of the counterexample. -/
def c1snap1 : DataLoadResult Nat :=
  { data := 1, must_revalidate := true, valid_until := 20 }

/-- Value published by the second refresh attempt of the counterexample. -/
def c1snap2 : DataLoadResult Nat :=
  { data := 2, must_revalidate := true, valid_until := 30 }

/-- Provider script of the counterexample: call 0 returns `c1snap1`, later
calls return `c1snap2`. -/
def c1script : Nat → Except Nat (DataLoadResult Nat) :=
  fun k => if k = 0 then .ok c1snap1 else .ok c1snap2

/-- Two concurrent callers, both at time 11, on the stale snapshot. -/
def c1init : Sys Nat := mkInit 5 c1snap0 0 0 c1script [11, 11]

/-- Interleaving: both callers read the stale snapshot, then caller 0
acquires the gate, refreshes and releases; caller 1 then acquires the freed
gate and refreshes again. -/
def c1acts : List Act :=
  [Act.act 0, Act.act 1, Act.act 0, Act.act 0, Act.act 0,
   Act.act 1, Act.act 1, Act.act 1]

/-- A stale snapshot that does not mandate revalidation. -/
def c3snap0 : DataLoadResult Nat :=
  { data := 3, must_revalidate := false, valid_until := 10 }

/-- One caller at time 11 on the stale optional-revalidation snapshot, with
a failing provider. -/
def c3init : Sys Nat := mkInit 5 c3snap0 0 0 (fun _ => .error 1) [11]

/-- The caller reads, wins `try_lock` and spawns the refresh, returning
its stale snapshot at the spawn step. -/
def c3acts : List Act := [Act.act 0, Act.act 0, Act.act 0]

/-- Refresh attempt result for the waiter fan-out witness. -/
def c7snap1 : DataLoadResult Nat :=
  { data := 4, must_revalidate := true, valid_until := 30 }

/-- Two callers at time 11 on the stale must-revalidate snapshot `c1snap0`,
with a provider publishing `c7snap1`. -/
def c7init : Sys Nat := mkInit 5 c1snap0 0 0 (fun _ => .ok c7snap1) [11, 11]

/-- Caller 0 reads, acquires the gate and starts loading; caller 1 reads,
fails `try_lock` and joins the FIFO. -/
def c7acts1 : List Act :=
  [Act.act 0, Act.act 0, Act.act 0, Act.act 1, Act.act 1, Act.act 1]

end RemoteConfig

namespace HttpExtractor

open RemoteConfig (DataLoadResult)

/-- The two response header names `SerdeDataExtractor::extract` consults. -/
inductive HeaderName where
  | cacheControl
  | contentType
deriving Repr, DecidableEq

/-- The parse result of a Cache-Control header: `must_revalidate` flag and
optional `max-age` duration (seconds), as produced by the external
`cache_control` crate. -/
structure CacheControlVal where
  must_revalidate : Bool
  max_age : Option Nat
deriving Repr, DecidableEq

/-- A Cache-Control header value, characterised by what the external
`cache_control` crate does with it: `nonAscii` = `HeaderValue::to_str` fails;
`unparseable s` = `CacheControl::from_value(s)` returns `None`;
`parsed s v` = it parses to `v`. -/
inductive CCHeader where
  | nonAscii
  | unparseable (s : String)
  | parsed (s : String) (v : CacheControlVal)
deriving Repr, DecidableEq

/-- `DataExtractionError` from `src/data_providers/http.rs` (the inner boxed
error of `ContentParseError` is opaque and omitted). -/
inductive DataExtractionError where
  | HeaderNotFound (h : HeaderName)
  | HeaderParseError (h : HeaderName) (value : String)
  | UnsupportedContentType (t : String) (feature : Option String)
  | ContentParseError (t : String)
  | StatusError (code : Nat)
deriving Repr, DecidableEq

/-- `parse_cache_control` (src/data_providers/http.rs lines 276-279). -/
def parse_cache_control (h : CCHeader) :
    Except DataExtractionError CacheControlVal :=
  match h with
  | .nonAscii => .error (.HeaderParseError .cacheControl "<NON_ASCII_DATA>")
  | .unparseable s => .error (.HeaderParseError .cacheControl s)
  | .parsed _ v => .ok v

/-- The parts of a `reqwest::Response` consumed by
`SerdeDataExtractor::extract`: status code, the two headers (the
Content-Type value is assumed ASCII, so `to_str` succeeds on it), and the
body, modelled as the outcome of handing the raw bytes to the serde
deserializer selected by the content type (all four deserializer features
enabled). -/
structure Response (Data : Type) where
  status : Nat
  cacheControl : Option CCHeader
  contentType : Option String
  body : Except Unit Data

/-- `SerdeDataExtractor::extract` (src/data_providers/http.rs lines 318-369).
Note: line 324 of the source reads
`response.headers().get(CONTENT_TYPE).ok_or(HeaderNotFound(CACHE_CONTROL))?`,
so a missing Content-Type header is reported as
`HeaderNotFound(CACHE_CONTROL)`; the embedding mirrors this. -/
def extract {Data : Type} (resp : Response Data) (now : Nat) :
    Except DataExtractionError (DataLoadResult Data) :=
  if resp.status < 200 ∨ 300 ≤ resp.status then
    .error (.StatusError resp.status)
  else
    match resp.cacheControl with
    | none => .error (.HeaderNotFound .cacheControl)
    | some ccv =>
      match parse_cache_control ccv with
      | .error e => .error e
      | .ok cache_control =>
        match resp.contentType with
        | none => .error (.HeaderNotFound .cacheControl)
        | some content_type =>
          match
            (match content_type with
             | "application/json" =>
               match resp.body with
               | .ok d => Except.ok d
               | .error _ => .error (DataExtractionError.ContentParseError "application/json")
             | "application/toml" =>
               match resp.body with
               | .ok d => Except.ok d
               | .error _ => .error (DataExtractionError.ContentParseError "application/toml")
             | "application/yaml" =>
               match resp.body with
               | .ok d => Except.ok d
               | .error _ => .error (DataExtractionError.ContentParseError "application/yaml")
             | "application/xml" =>
               match resp.body with
               | .ok d => Except.ok d
               | .error _ => .error (DataExtractionError.ContentParseError "application/xml")
             | other => .error (.UnsupportedContentType other none)) with
          | .error e => .error e
          | .ok data =>
            .ok { data := data,
                  must_revalidate := cache_control.must_revalidate,
                  valid_until := now + (cache_control.max_age.getD 0) }

/-- A 200 response carrying a parseable Cache-Control header and a JSON body
but no Content-Type header. -/
def c9respNoCT : Response Nat :=
  { status := 200,
    cacheControl := some (.parsed "public, max-age=10"
      { must_revalidate := false, max_age := some 10 }),
    contentType := none, body := .ok 42 }

/-- A 200 response carrying a Content-Type header and a JSON body but no
Cache-Control header. -/
def c9respNoCC : Response Nat :=
  { status := 200, cacheControl := none,
    contentType := some "application/json", body := .ok 42 }

/-- A 200 JSON response whose Cache-Control parses with no max-age. -/
def w10resp : Response Nat :=
  { status := 200,
    cacheControl := some (.parsed "must-revalidate"
      { must_revalidate := true, max_age := none }),
    contentType := some "application/json", body := .ok 42 }

end HttpExtractor

namespace RemoteConfig

lemma updFun_self {Data : Type} (f : Nat → Option (Task Data)) (tid : Nat)
    (tk : Task Data) : updFun f tid tk tid = some tk := by
  simp [updFun]

lemma updFun_ne {Data : Type} (f : Nat → Option (Task Data)) (tid : Nat)
    (tk : Task Data) {j : Nat} (h : j ≠ tid) : updFun f tid tk j = f j := by
  simp [updFun, h]

lemma updFun_eq_some {Data : Type} {f : Nat → Option (Task Data)} {tid : Nat}
    {tk' : Task Data} {j : Nat} {tkj : Task Data}
    (h : updFun f tid tk' j = some tkj) :
    (j = tid ∧ tkj = tk') ∨ (j ≠ tid ∧ f j = some tkj) := by
  by_cases hj : j = tid
  · subst hj
    rw [updFun_self] at h
    exact Or.inl ⟨rfl, (Option.some.inj h).symm⟩
  · rw [updFun_ne _ _ _ hj] at h
    exact Or.inr ⟨hj, h⟩

lemma snapProven_mono {Data : Type} {c0 : DataLoadResult Data}
    {script : Nat → Except Nat (DataLoadResult Data)} {m n : Nat}
    (h : m ≤ n) {d : DataLoadResult Data} :
    snapProven c0 script m d → snapProven c0 script n d := by
  rintro (h0 | ⟨k, hk, hsk⟩)
  · exact Or.inl h0
  · exact Or.inr ⟨k, lt_of_lt_of_le hk h, hsk⟩

lemma failProven_mono {Data : Type}
    {script : Nat → Except Nat (DataLoadResult Data)} {m n : Nat}
    (h : m ≤ n) {f : Failure} :
    failProven script m f → failProven script n f := by
  rintro ⟨hk, hsk⟩
  exact ⟨lt_of_lt_of_le hk h, hsk⟩

lemma outcomeProv_mono {Data : Type} {c0 : DataLoadResult Data}
    {script : Nat → Except Nat (DataLoadResult Data)} {m n : Nat}
    (h : m ≤ n) {o : LoadOutcome Data} :
    outcomeProv c0 script m o → outcomeProv c0 script n o := by
  cases o with
  | ok d => exact snapProven_mono h
  | err f => exact failProven_mono h

lemma releaseLock_eq_nil {Data : Type} (s : Sys Data) (h : s.queue = []) :
    releaseLock s = { s with lockHolder := none } := by
  unfold releaseLock
  simp only [h]

lemma releaseLock_eq_cons {Data : Type} (s : Sys Data) (w : Nat)
    (rest : List Nat) (tkw : Task Data) (hq : s.queue = w :: rest)
    (ht : s.tasks w = some tkw) :
    releaseLock s
      = { s with
          lockHolder := some w,
          queue := rest,
          tasks := (updFun s.tasks w { tkw with phase := .holdingWait }) } := by
  unfold releaseLock
  simp only [hq, ht]

lemma wf_releaseLock {Data : Type} (c0 : DataLoadResult Data) (s : Sys Data)
    (hNoOwn : ∀ tid tk, s.tasks tid = some tk → tk.phase.owns = true → False)
    (hq : ∀ tid, tid ∈ s.queue →
      ∃ tk, s.tasks tid = some tk ∧ tk.phase = .queued)
    (hnd : s.queue.Nodup)
    (hres : ∀ tid tk, s.tasks tid = some tk → tk.phase.noResult = true →
      tk.result = none)
    (hwmr : ∀ tid tk sn, s.tasks tid = some tk → tk.snap = some sn →
      tk.phase.waits = true → sn.must_revalidate = true)
    (hor : ∀ tid tk sn o, s.tasks tid = some tk → tk.snap = some sn →
      sn.must_revalidate = false → tk.result = some o → o = .ok sn)
    (hcp : snapProven c0 s.script s.calls s.cached)
    (hep : ∀ f, s.revalidation_error = some f → failProven s.script s.calls f)
    (hsp : ∀ tid tk sn, s.tasks tid = some tk → tk.snap = some sn →
      snapProven c0 s.script s.calls sn)
    (hrp : ∀ tid tk o, s.tasks tid = some tk → tk.result = some o →
      outcomeProv c0 s.script s.calls o) :
    WF c0 (releaseLock s) := by
  rcases hq0 : s.queue with _ | ⟨w, rest⟩
  · rw [releaseLock_eq_nil s hq0]
    refine ⟨?_, ?_, ?_, ?_, ?_, ?_, ?_, ?_, ?_, ?_, ?_, ?_, ?_⟩
    · intro tid tk htk hown
      exact (hNoOwn tid tk htk hown).elim
    · intro tid htid
      dsimp only at htid
      rw [hq0] at htid
      exact absurd htid (List.not_mem_nil tid)
    · dsimp only
      rw [hq0]
      exact List.nodup_nil
    · intro hne
      dsimp only at hne
      rw [hq0] at hne
      exact absurd rfl hne
    · exact hres
    · exact hwmr
    · exact hor
    · intro tid tk sn k htk hsn hmr hph
      exact (hNoOwn tid tk htk (by rw [hph]; rfl)).elim
    · intro tid tk k htk hph
      exact (hNoOwn tid tk htk (by rw [hph]; rfl)).elim
    · exact hcp
    · exact hep
    · exact hsp
    · exact hrp
  · have hwq : w ∈ s.queue := by
      rw [hq0]
      exact List.mem_cons_self w rest
    obtain ⟨tkw, hTw, hPw⟩ := hq w hwq
    rw [releaseLock_eq_cons s w rest tkw hq0 hTw]
    rw [hq0] at hnd
    refine ⟨?_, ?_, ?_, ?_, ?_, ?_, ?_, ?_, ?_, ?_, ?_, ?_, ?_⟩
    · intro tid tk htk hown
      dsimp only at htk ⊢
      rcases updFun_eq_some htk with ⟨rfl, rfl⟩ | ⟨hne, hold⟩
      · rfl
      · exact (hNoOwn tid tk hold hown).elim
    · intro tid htid
      dsimp only at htid ⊢
      have hmem : tid ∈ s.queue := by
        rw [hq0]
        exact List.mem_cons_of_mem _ htid
      obtain ⟨tk, htk, hph⟩ := hq tid hmem
      have hne : tid ≠ w := by
        intro he
        subst he
        exact (List.nodup_cons.mp hnd).1 htid
      refine ⟨tk, ?_, hph⟩
      rw [updFun_ne _ _ _ hne]
      exact htk
    · dsimp only
      exact (List.nodup_cons.mp hnd).2
    · intro _
      dsimp only
      simp
    · intro tid tk htk hnr
      dsimp only at htk
      rcases updFun_eq_some htk with ⟨rfl, rfl⟩ | ⟨hne, hold⟩
      · exact hres _ tkw hTw (by rw [hPw]; rfl)
      · exact hres tid tk hold hnr
    · intro tid tk sn htk hsn hw
      dsimp only at htk
      rcases updFun_eq_some htk with ⟨rfl, rfl⟩ | ⟨hne, hold⟩
      · exact hwmr _ tkw sn hTw hsn (by rw [hPw]; rfl)
      · exact hwmr tid tk sn hold hsn hw
    · intro tid tk sn o htk hsn hmr hro
      dsimp only at htk
      rcases updFun_eq_some htk with ⟨rfl, rfl⟩ | ⟨hne, hold⟩
      · exact hor _ tkw sn o hTw hsn hmr hro
      · exact hor tid tk sn o hold hsn hmr hro
    · intro tid tk sn k htk hsn hmr hph
      dsimp only at htk
      rcases updFun_eq_some htk with ⟨rfl, rfl⟩ | ⟨hne, hold⟩
      · exact absurd hph (by simp)
      · exact (hNoOwn tid tk hold (by rw [hph]; rfl)).elim
    · intro tid tk k htk hph
      dsimp only at htk
      rcases updFun_eq_some htk with ⟨rfl, rfl⟩ | ⟨hne, hold⟩
      · exact absurd hph (by simp)
      · exact (hNoOwn tid tk hold (by rw [hph]; rfl)).elim
    · exact hcp
    · exact hep
    · intro tid tk sn htk hsn
      dsimp only at htk
      rcases updFun_eq_some htk with ⟨rfl, rfl⟩ | ⟨hne, hold⟩
      · exact hsp _ tkw sn hTw hsn
      · exact hsp tid tk sn hold hsn
    · intro tid tk o htk hro
      dsimp only at htk
      rcases updFun_eq_some htk with ⟨rfl, rfl⟩ | ⟨hne, hold⟩
      · exact hrp _ tkw o hTw hro
      · exact hrp tid tk o hold hro

lemma wf_mk {Data : Type} (c0 : DataLoadResult Data) (s : Sys Data)
    (tid : Nat) (tk tknew : Task Data) (lh' : Option Nat) (q' : List Nat)
    (calls' : Nat) (hwf : WF c0 s) (hT : s.tasks tid = some tk)
    (hcle : s.calls ≤ calls')
    (h_owns_new : tknew.phase.owns = true → lh' = some tid)
    (h_owns_old : ∀ j tkj, j ≠ tid → s.tasks j = some tkj →
      tkj.phase.owns = true → lh' = some j)
    (h_qm : ∀ j, j ∈ q' →
      ∃ tkj, updFun s.tasks tid tknew j = some tkj ∧ tkj.phase = .queued)
    (h_nd : q'.Nodup)
    (h_qh : q' ≠ [] → lh' ≠ none)
    (h_res : tknew.phase.noResult = true → tknew.result = none)
    (h_wmr : ∀ sn, tknew.snap = some sn → tknew.phase.waits = true →
      sn.must_revalidate = true)
    (h_or : ∀ sn o, tknew.snap = some sn → sn.must_revalidate = false →
      tknew.result = some o → o = .ok sn)
    (h_ol : ∀ sn k, tknew.snap = some sn → sn.must_revalidate = false →
      tknew.phase = .loading k → tknew.result = some (.ok sn))
    (h_ll : ∀ k, tknew.phase = .loading k → k < calls')
    (h_sp : ∀ sn, tknew.snap = some sn → snapProven c0 s.script calls' sn)
    (h_rp : ∀ o, tknew.result = some o → outcomeProv c0 s.script calls' o) :
    WF c0 { s with lockHolder := lh', queue := q', calls := calls',
                   tasks := (updFun s.tasks tid tknew) } := by
  refine ⟨?_, ?_, ?_, ?_, ?_, ?_, ?_, ?_, ?_, ?_, ?_, ?_, ?_⟩
  · intro j tkj hj hown
    dsimp only at hj ⊢
    rcases updFun_eq_some hj with ⟨rfl, rfl⟩ | ⟨hne, hold⟩
    · exact h_owns_new hown
    · exact h_owns_old j tkj hne hold hown
  · intro j hj
    exact h_qm j hj
  · exact h_nd
  · exact h_qh
  · intro j tkj hj hnr
    dsimp only at hj
    rcases updFun_eq_some hj with ⟨rfl, rfl⟩ | ⟨hne, hold⟩
    · exact h_res hnr
    · exact hwf.res_none j tkj hold hnr
  · intro j tkj sn hj hsn hw
    dsimp only at hj
    rcases updFun_eq_some hj with ⟨rfl, rfl⟩ | ⟨hne, hold⟩
    · exact h_wmr sn hsn hw
    · exact hwf.wait_mr j tkj sn hold hsn hw
  · intro j tkj sn o hj hsn hmr hro
    dsimp only at hj
    rcases updFun_eq_some hj with ⟨rfl, rfl⟩ | ⟨hne, hold⟩
    · exact h_or sn o hsn hmr hro
    · exact hwf.opt_result j tkj sn o hold hsn hmr hro
  · intro j tkj sn k hj hsn hmr hph
    dsimp only at hj
    rcases updFun_eq_some hj with ⟨rfl, rfl⟩ | ⟨hne, hold⟩
    · exact h_ol sn k hsn hmr hph
    · exact hwf.opt_loading j tkj sn k hold hsn hmr hph
  · intro j tkj k hj hph
    dsimp only at hj ⊢
    rcases updFun_eq_some hj with ⟨rfl, rfl⟩ | ⟨hne, hold⟩
    · exact h_ll k hph
    · exact lt_of_lt_of_le (hwf.loading_lt j tkj k hold hph) hcle
  · exact snapProven_mono hcle hwf.cached_prov
  · intro f hf
    exact failProven_mono hcle (hwf.error_prov f hf)
  · intro j tkj sn hj hsn
    dsimp only at hj
    rcases updFun_eq_some hj with ⟨rfl, rfl⟩ | ⟨hne, hold⟩
    · exact h_sp sn hsn
    · exact snapProven_mono hcle (hwf.snap_prov j tkj sn hold hsn)
  · intro j tkj o hj hro
    dsimp only at hj
    rcases updFun_eq_some hj with ⟨rfl, rfl⟩ | ⟨hne, hold⟩
    · exact h_rp o hro
    · exact outcomeProv_mono hcle (hwf.result_prov j tkj o hold hro)

lemma wf_finish {Data : Type} (c0 : DataLoadResult Data) (s : Sys Data)
    (tid : Nat) (tk tknew : Task Data) (E' : Option Failure)
    (C' : DataLoadResult Data) (hwf : WF c0 s) (hT : s.tasks tid = some tk)
    (h_old_owns : tk.phase.owns = true)
    (h_done : tknew.phase = .done)
    (h_snap : tknew.snap = tk.snap)
    (h_or : ∀ sn o, tknew.snap = some sn → sn.must_revalidate = false →
      tknew.result = some o → o = .ok sn)
    (hcp : snapProven c0 s.script s.calls C')
    (hep : ∀ f, E' = some f → failProven s.script s.calls f)
    (h_rp : ∀ o, tknew.result = some o → outcomeProv c0 s.script s.calls o) :
    WF c0 (releaseLock
      { s with
        revalidation_error := E',
        cached := C',
        tasks := (updFun s.tasks tid tknew) }) := by
  refine wf_releaseLock c0 _ ?_ ?_ ?_ ?_ ?_ ?_ ?_ ?_ ?_ ?_
  · intro j tkj hj hown
    dsimp only at hj
    rcases updFun_eq_some hj with ⟨rfl, rfl⟩ | ⟨hne, hold⟩
    · rw [h_done] at hown
      simp [Phase.owns] at hown
    · have h1 := hwf.owner_holds j tkj hold hown
      have h2 := hwf.owner_holds tid tk hT h_old_owns
      rw [h1] at h2
      exact absurd (Option.some.inj h2) hne
  · intro j hj
    have hj' : j ∈ s.queue := hj
    obtain ⟨tkj, hold, hqd⟩ := hwf.queue_mem j hj'
    by_cases hje : j = tid
    · subst hje
      rw [hT] at hold
      cases Option.some.inj hold
      rw [hqd] at h_old_owns
      simp [Phase.owns] at h_old_owns
    · refine ⟨tkj, ?_, hqd⟩
      dsimp only
      rw [updFun_ne _ _ _ hje]
      exact hold
  · exact hwf.queue_nodup
  · intro j tkj hj hnr
    dsimp only at hj
    rcases updFun_eq_some hj with ⟨rfl, rfl⟩ | ⟨hne, hold⟩
    · rw [h_done] at hnr
      simp [Phase.noResult] at hnr
    · exact hwf.res_none j tkj hold hnr
  · intro j tkj sn hj hsn hw
    dsimp only at hj
    rcases updFun_eq_some hj with ⟨rfl, rfl⟩ | ⟨hne, hold⟩
    · rw [h_done] at hw
      simp [Phase.waits] at hw
    · exact hwf.wait_mr j tkj sn hold hsn hw
  · intro j tkj sn o hj hsn hmr hro
    dsimp only at hj
    rcases updFun_eq_some hj with ⟨rfl, rfl⟩ | ⟨hne, hold⟩
    · exact h_or sn o hsn hmr hro
    · exact hwf.opt_result j tkj sn o hold hsn hmr hro
  · exact hcp
  · exact hep
  · intro j tkj sn hj hsn
    dsimp only at hj
    rcases updFun_eq_some hj with ⟨rfl, rfl⟩ | ⟨hne, hold⟩
    · rw [h_snap] at hsn
      exact hwf.snap_prov _ tk sn hT hsn
    · exact hwf.snap_prov j tkj sn hold hsn
  · intro j tkj o hj hro
    dsimp only at hj
    rcases updFun_eq_some hj with ⟨rfl, rfl⟩ | ⟨hne, hold⟩
    · exact h_rp o hro
    · exact hwf.result_prov j tkj o hold hro

lemma releaseLock_calls {Data : Type} (s : Sys Data) :
    (releaseLock s).calls = s.calls := by
  unfold releaseLock
  rcases hq : s.queue with _ | ⟨w, rest⟩
  · rfl
  · rcases ht : s.tasks w with _ | wt <;> simp only [ht]

lemma releaseLock_cached {Data : Type} (s : Sys Data) :
    (releaseLock s).cached = s.cached := by
  unfold releaseLock
  rcases hq : s.queue with _ | ⟨w, rest⟩
  · rfl
  · rcases ht : s.tasks w with _ | wt <;> simp only [ht]

lemma releaseLock_error {Data : Type} (s : Sys Data) :
    (releaseLock s).revalidation_error = s.revalidation_error := by
  unfold releaseLock
  rcases hq : s.queue with _ | ⟨w, rest⟩
  · rfl
  · rcases ht : s.tasks w with _ | wt <;> simp only [ht]

lemma releaseLock_now {Data : Type} (s : Sys Data) :
    (releaseLock s).now = s.now := by
  unfold releaseLock
  rcases hq : s.queue with _ | ⟨w, rest⟩
  · rfl
  · rcases ht : s.tasks w with _ | wt <;> simp only [ht]

lemma releaseLock_retry {Data : Type} (s : Sys Data) :
    (releaseLock s).retry_interval = s.retry_interval := by
  unfold releaseLock
  rcases hq : s.queue with _ | ⟨w, rest⟩
  · rfl
  · rcases ht : s.tasks w with _ | wt <;> simp only [ht]

lemma releaseLock_script {Data : Type} (s : Sys Data) :
    (releaseLock s).script = s.script := by
  unfold releaseLock
  rcases hq : s.queue with _ | ⟨w, rest⟩
  · rfl
  · rcases ht : s.tasks w with _ | wt <;> simp only [ht]

lemma releaseLock_result {Data : Type} (s : Sys Data) (j : Nat) :
    ((releaseLock s).tasks j).bind Task.result
      = (s.tasks j).bind Task.result := by
  unfold releaseLock
  rcases hq : s.queue with _ | ⟨w, rest⟩
  · rfl
  · rcases ht : s.tasks w with _ | wt
    · simp only [ht]
    · simp only [ht]
      by_cases hj : j = w
      · subst hj
        simp [updFun, ht]
      · simp [updFun, hj]

lemma updFun_queue_mem {Data : Type} {f : Nat → Option (Task Data)}
    {q : List Nat} {tid : Nat} {tk : Task Data} (tknew : Task Data)
    (hqm : ∀ j, j ∈ q → ∃ tkj, f j = some tkj ∧ tkj.phase = .queued)
    (hT : f tid = some tk) (hnotq : tk.phase ≠ .queued) :
    ∀ j, j ∈ q →
      ∃ tkj, updFun f tid tknew j = some tkj ∧ tkj.phase = .queued := by
  intro j hj
  obtain ⟨tkj, hold, hqd⟩ := hqm j hj
  by_cases hje : j = tid
  · subst hje
    rw [hT] at hold
    cases Option.some.inj hold
    exact absurd hqd hnotq
  · exact ⟨tkj, by rw [updFun_ne _ _ _ hje]; exact hold, hqd⟩

theorem wf_step {Data : Type} (c0 : DataLoadResult Data) {s s' : Sys Data}
    {a : Act} (hwf : WF c0 s) (h : step s a = some s') : WF c0 s' := by
  cases a with
  | tick =>
    simp only [step] at h
    cases Option.some.inj h
    exact ⟨hwf.owner_holds, hwf.queue_mem, hwf.queue_nodup, hwf.queue_holder,
           hwf.res_none, hwf.wait_mr, hwf.opt_result, hwf.opt_loading,
           hwf.loading_lt, hwf.cached_prov, hwf.error_prov, hwf.snap_prov,
           hwf.result_prov⟩
  | act tid =>
    simp only [step, stepTask] at h
    rcases hT : s.tasks tid with _ | tk
    · simp only [hT] at h
      exact (Option.noConfusion h)
    · simp only [hT] at h
      rcases hP : tk.phase with _ | _ | _ | _ | _ | _ | k | _
      all_goals simp only [hP] at h
      -- start
      · by_cases hc : s.cached.valid_until < tk.time
        · rw [if_pos hc] at h
          cases Option.some.inj h
          refine wf_mk c0 s tid tk _ _ _ _ hwf hT ?_ ?_ ?_ ?_ ?_ ?_ ?_ ?_ ?_ ?_ ?_ ?_ ?_
          · exact le_rfl
          · intro hown
            simp [Phase.owns] at hown
          · intro j tkj hne hold ho
            exact hwf.owner_holds j tkj hold ho
          · exact updFun_queue_mem _ hwf.queue_mem hT (by simp [hP])
          · exact hwf.queue_nodup
          · exact hwf.queue_holder
          · intro _
            exact hwf.res_none tid tk hT (by rw [hP]; rfl)
          · intro sn hsn hw
            simp [Phase.waits] at hw
          · intro sn o hsn hmr hro
            have hn := hwf.res_none tid tk hT (by rw [hP]; rfl)
            dsimp only at hro
            rw [hn] at hro
            exact absurd hro (by simp)
          · intro sn k hsn hmr hph
            exact absurd hph (by simp)
          · intro k hph
            exact absurd hph (by simp)
          · intro sn hsn
            dsimp only at hsn
            cases Option.some.inj hsn
            exact hwf.cached_prov
          · intro o hro
            have hn := hwf.res_none tid tk hT (by rw [hP]; rfl)
            dsimp only at hro
            rw [hn] at hro
            exact absurd hro (by simp)
        · rw [if_neg hc] at h
          cases Option.some.inj h
          refine wf_mk c0 s tid tk _ _ _ _ hwf hT ?_ ?_ ?_ ?_ ?_ ?_ ?_ ?_ ?_ ?_ ?_ ?_ ?_
          · exact le_rfl
          · intro hown
            simp [Phase.owns] at hown
          · intro j tkj hne hold ho
            exact hwf.owner_holds j tkj hold ho
          · exact updFun_queue_mem _ hwf.queue_mem hT (by simp [hP])
          · exact hwf.queue_nodup
          · exact hwf.queue_holder
          · intro hnr
            simp [Phase.noResult] at hnr
          · intro sn hsn hw
            simp [Phase.waits] at hw
          · intro sn o hsn hmr hro
            dsimp only at hsn hro
            cases Option.some.inj hsn
            cases Option.some.inj hro
            rfl
          · intro sn k hsn hmr hph
            exact absurd hph (by simp)
          · intro k hph
            exact absurd hph (by simp)
          · intro sn hsn
            dsimp only at hsn
            cases Option.some.inj hsn
            exact hwf.cached_prov
          · intro o hro
            dsimp only at hro
            cases Option.some.inj hro
            exact hwf.cached_prov
      -- tryLock
      · rcases hS : tk.snap with _ | sn
        · simp only [hS] at h
          exact (Option.noConfusion h)
        · simp only [hS] at h
          by_cases h1 : s.lockHolder = none
          · rw [if_pos h1] at h
            cases Option.some.inj h
            refine wf_mk c0 s tid tk _ _ _ _ hwf hT ?_ ?_ ?_ ?_ ?_ ?_ ?_ ?_ ?_ ?_ ?_ ?_ ?_
            · exact le_rfl
            · intro _
              rfl
            · intro j tkj hne hold ho
              have h2 := hwf.owner_holds j tkj hold ho
              rw [h1] at h2
              exact absurd h2 (by simp)
            · exact updFun_queue_mem _ hwf.queue_mem hT (by simp [hP])
            · exact hwf.queue_nodup
            · intro _
              simp
            · intro _
              exact hwf.res_none tid tk hT (by rw [hP]; rfl)
            · intro sn' hsn' hw
              simp [Phase.waits] at hw
            · intro sn' o hsn' hmr hro
              have hn := hwf.res_none tid tk hT (by rw [hP]; rfl)
              dsimp only at hro
              rw [hn] at hro
              exact absurd hro (by simp)
            · intro sn' k hsn' hmr hph
              exact absurd hph (by simp)
            · intro k hph
              exact absurd hph (by simp)
            · intro sn' hsn'
              dsimp only at hsn'
              cases Option.some.inj hsn'
              exact hwf.snap_prov tid tk _ hT hS
            · intro o hro
              have hn := hwf.res_none tid tk hT (by rw [hP]; rfl)
              dsimp only at hro
              rw [hn] at hro
              exact absurd hro (by simp)
          · rw [if_neg h1] at h
            by_cases h2 : sn.must_revalidate = true
            · rw [if_pos h2] at h
              cases Option.some.inj h
              refine wf_mk c0 s tid tk _ _ _ _ hwf hT ?_ ?_ ?_ ?_ ?_ ?_ ?_ ?_ ?_ ?_ ?_ ?_ ?_
              · exact le_rfl
              · intro hown
                simp [Phase.owns] at hown
              · intro j tkj hne hold ho
                exact hwf.owner_holds j tkj hold ho
              · exact updFun_queue_mem _ hwf.queue_mem hT (by simp [hP])
              · exact hwf.queue_nodup
              · exact hwf.queue_holder
              · intro _
                exact hwf.res_none tid tk hT (by rw [hP]; rfl)
              · intro sn' hsn' hw
                dsimp only at hsn'
                cases Option.some.inj hsn'
                exact h2
              · intro sn' o hsn' hmr hro
                have hn := hwf.res_none tid tk hT (by rw [hP]; rfl)
                dsimp only at hro
                rw [hn] at hro
                exact absurd hro (by simp)
              · intro sn' k hsn' hmr hph
                exact absurd hph (by simp)
              · intro k hph
                exact absurd hph (by simp)
              · intro sn' hsn'
                dsimp only at hsn'
                cases Option.some.inj hsn'
                exact hwf.snap_prov tid tk _ hT hS
              · intro o hro
                have hn := hwf.res_none tid tk hT (by rw [hP]; rfl)
                dsimp only at hro
                rw [hn] at hro
                exact absurd hro (by simp)
            · rw [if_neg h2] at h
              cases Option.some.inj h
              refine wf_mk c0 s tid tk _ _ _ _ hwf hT ?_ ?_ ?_ ?_ ?_ ?_ ?_ ?_ ?_ ?_ ?_ ?_ ?_
              · exact le_rfl
              · intro hown
                simp [Phase.owns] at hown
              · intro j tkj hne hold ho
                exact hwf.owner_holds j tkj hold ho
              · exact updFun_queue_mem _ hwf.queue_mem hT (by simp [hP])
              · exact hwf.queue_nodup
              · exact hwf.queue_holder
              · intro hnr
                simp [Phase.noResult] at hnr
              · intro sn' hsn' hw
                simp [Phase.waits] at hw
              · intro sn' o hsn' hmr hro
                dsimp only at hsn' hro
                cases Option.some.inj hsn'
                cases Option.some.inj hro
                rfl
              · intro sn' k hsn' hmr hph
                exact absurd hph (by simp)
              · intro k hph
                exact absurd hph (by simp)
              · intro sn' hsn'
                dsimp only at hsn'
                cases Option.some.inj hsn'
                exact hwf.snap_prov tid tk _ hT hS
              · intro o hro
                dsimp only at hro
                cases Option.some.inj hro
                exact hwf.snap_prov tid tk sn hT hS
      -- awaitLock
      · by_cases h1 : s.lockHolder = none
        · rw [if_pos h1] at h
          cases Option.some.inj h
          refine wf_mk c0 s tid tk _ _ _ _ hwf hT ?_ ?_ ?_ ?_ ?_ ?_ ?_ ?_ ?_ ?_ ?_ ?_ ?_
          · exact le_rfl
          · intro _
            rfl
          · intro j tkj hne hold ho
            have h2 := hwf.owner_holds j tkj hold ho
            rw [h1] at h2
            exact absurd h2 (by simp)
          · exact updFun_queue_mem _ hwf.queue_mem hT (by simp [hP])
          · exact hwf.queue_nodup
          · intro _
            simp
          · intro _
            exact hwf.res_none tid tk hT (by rw [hP]; rfl)
          · intro sn' hsn' hw
            exact hwf.wait_mr tid tk sn' hT hsn' (by rw [hP]; rfl)
          · intro sn' o hsn' hmr hro
            have hn := hwf.res_none tid tk hT (by rw [hP]; rfl)
            dsimp only at hro
            rw [hn] at hro
            exact absurd hro (by simp)
          · intro sn' k hsn' hmr hph
            exact absurd hph (by simp)
          · intro k hph
            exact absurd hph (by simp)
          · intro sn' hsn'
            exact hwf.snap_prov tid tk sn' hT hsn'
          · intro o hro
            have hn := hwf.res_none tid tk hT (by rw [hP]; rfl)
            dsimp only at hro
            rw [hn] at hro
            exact absurd hro (by simp)
        · rw [if_neg h1] at h
          cases Option.some.inj h
          refine wf_mk c0 s tid tk _ _ _ _ hwf hT ?_ ?_ ?_ ?_ ?_ ?_ ?_ ?_ ?_ ?_ ?_ ?_ ?_
          · exact le_rfl
          · intro hown
            simp [Phase.owns] at hown
          · intro j tkj hne hold ho
            exact hwf.owner_holds j tkj hold ho
          · intro j hj
            rcases List.mem_append.mp hj with hj1 | hj2
            · obtain ⟨tkj, hold, hqd⟩ := hwf.queue_mem j hj1
              have hne : j ≠ tid := by
                intro he
                subst he
                rw [hT] at hold
                cases Option.some.inj hold
                rw [hP] at hqd
                exact absurd hqd (by simp)
              exact ⟨_, by rw [updFun_ne _ _ _ hne]; exact hold, hqd⟩
            · have hje : j = tid := List.mem_singleton.mp hj2
              subst hje
              exact ⟨_, updFun_self _ _ _, rfl⟩
          · rw [List.nodup_append]
            refine ⟨hwf.queue_nodup, List.nodup_singleton tid, ?_⟩
            intro x hx hx2
            have hxe : x = tid := List.mem_singleton.mp hx2
            subst hxe
            obtain ⟨tkx, holdx, hqx⟩ := hwf.queue_mem x hx
            rw [hT] at holdx
            cases Option.some.inj holdx
            rw [hP] at hqx
            exact absurd hqx (by simp)
          · intro _
            exact h1
          · intro _
            exact hwf.res_none tid tk hT (by rw [hP]; rfl)
          · intro sn' hsn' hw
            exact hwf.wait_mr tid tk sn' hT hsn' (by rw [hP]; rfl)
          · intro sn' o hsn' hmr hro
            have hn := hwf.res_none tid tk hT (by rw [hP]; rfl)
            dsimp only at hro
            rw [hn] at hro
            exact absurd hro (by simp)
          · intro sn' k hsn' hmr hph
            exact absurd hph (by simp)
          · intro k hph
            exact absurd hph (by simp)
          · intro sn' hsn'
            exact hwf.snap_prov tid tk sn' hT hsn'
          · intro o hro
            have hn := hwf.res_none tid tk hT (by rw [hP]; rfl)
            dsimp only at hro
            rw [hn] at hro
            exact absurd hro (by simp)
      -- queued: no step
      · exact absurd h (by simp)
      -- holdingWait
      · cases Option.some.inj h
        refine wf_finish c0 s tid tk _ _ _ hwf hT ?_ ?_ ?_ ?_ ?_ ?_ ?_
        · rw [hP]
          rfl
        · rfl
        · rfl
        · intro sn o hsn hmr hro
          have hmr2 := hwf.wait_mr tid tk sn hT hsn (by rw [hP]; rfl)
          rw [hmr2] at hmr
          exact absurd hmr (by simp)
        · exact hwf.cached_prov
        · exact hwf.error_prov
        · intro o hro
          dsimp only at hro
          cases Option.some.inj hro
          unfold outcomeOf
          rcases hE : s.revalidation_error with _ | f
          · exact hwf.cached_prov
          · exact hwf.error_prov f hE
      -- locked
      · rcases hS : tk.snap with _ | sn
        · simp only [hS] at h
          exact (Option.noConfusion h)
        · simp only [hS] at h
          rcases hE : s.revalidation_error with _ | f
          · simp only [hE] at h
            cases Option.some.inj h
            refine wf_mk c0 s tid tk _ _ _ _ hwf hT ?_ ?_ ?_ ?_ ?_ ?_ ?_ ?_ ?_ ?_ ?_ ?_ ?_
            · exact Nat.le_succ _
            · intro _
              exact hwf.owner_holds tid tk hT (by rw [hP]; rfl)
            · intro j tkj hne hold ho
              exact hwf.owner_holds j tkj hold ho
            · exact updFun_queue_mem _ hwf.queue_mem hT (by simp [hP])
            · exact hwf.queue_nodup
            · exact hwf.queue_holder
            · intro hnr
              simp [Phase.noResult] at hnr
            · intro sn' hsn' hw
              simp [Phase.waits] at hw
            · intro sn' o hsn' hmr hro
              dsimp only at hsn' hro
              rw [hS] at hsn'
              cases Option.some.inj hsn'
              rw [hmr] at hro
              simp only [Bool.false_eq_true, if_false] at hro
              cases Option.some.inj hro
              rfl
            · intro sn' k hsn' hmr hph
              dsimp only at hsn' hph ⊢
              rw [hS] at hsn'
              cases Option.some.inj hsn'
              rw [hmr]
              simp
            · intro k hph
              dsimp only at hph
              injection hph with hk
              rw [← hk]
              exact Nat.lt_succ_self _
            · intro sn' hsn'
              dsimp only at hsn'
              rw [hS] at hsn'
              cases Option.some.inj hsn'
              exact snapProven_mono (Nat.le_succ _) (hwf.snap_prov tid tk _ hT hS)
            · intro o hro
              dsimp only at hro
              rcases hmr : sn.must_revalidate with _ | _
              · rw [hmr] at hro
                simp only [Bool.false_eq_true, if_false] at hro
                cases Option.some.inj hro
                exact snapProven_mono (Nat.le_succ _) (hwf.snap_prov tid tk sn hT hS)
              · rw [hmr] at hro
                simp only [if_true] at hro
                exact outcomeProv_mono (Nat.le_succ _) (hwf.result_prov tid tk o hT hro)
          · simp only [hE] at h
            by_cases hb : tk.time < f.timestamp + s.retry_interval
            · rw [if_pos hb] at h
              cases Option.some.inj h
              refine wf_finish c0 s tid tk _ _ _ hwf hT ?_ ?_ ?_ ?_ ?_ ?_ ?_
              · rw [hP]
                rfl
              · rfl
              · exact hS.symm
              · intro sn' o hsn' hmr hro
                dsimp only at hsn' hro
                cases Option.some.inj hsn'
                rw [hmr] at hro
                simp only [Bool.false_eq_true, if_false] at hro
                cases Option.some.inj hro
                rfl
              · exact hwf.cached_prov
              · intro f1 hf1
                cases Option.some.inj hf1
                exact hwf.error_prov f hE
              · intro o hro
                dsimp only at hro
                rcases hmr : sn.must_revalidate with _ | _
                · rw [hmr] at hro
                  simp only [Bool.false_eq_true, if_false] at hro
                  cases Option.some.inj hro
                  exact hwf.snap_prov tid tk sn hT hS
                · rw [hmr] at hro
                  simp only [if_true] at hro
                  cases Option.some.inj hro
                  exact hwf.error_prov f hE
            · rw [if_neg hb] at h
              cases Option.some.inj h
              refine wf_mk c0 s tid tk _ _ _ _ hwf hT ?_ ?_ ?_ ?_ ?_ ?_ ?_ ?_ ?_ ?_ ?_ ?_ ?_
              · exact Nat.le_succ _
              · intro _
                exact hwf.owner_holds tid tk hT (by rw [hP]; rfl)
              · intro j tkj hne hold ho
                exact hwf.owner_holds j tkj hold ho
              · exact updFun_queue_mem _ hwf.queue_mem hT (by simp [hP])
              · exact hwf.queue_nodup
              · exact hwf.queue_holder
              · intro hnr
                simp [Phase.noResult] at hnr
              · intro sn' hsn' hw
                simp [Phase.waits] at hw
              · intro sn' o hsn' hmr hro
                dsimp only at hsn' hro
                rw [hS] at hsn'
                cases Option.some.inj hsn'
                rw [hmr] at hro
                simp only [Bool.false_eq_true, if_false] at hro
                cases Option.some.inj hro
                rfl
              · intro sn' k hsn' hmr hph
                dsimp only at hsn' hph ⊢
                rw [hS] at hsn'
                cases Option.some.inj hsn'
                rw [hmr]
                simp
              · intro k hph
                dsimp only at hph
                injection hph with hk
                rw [← hk]
                exact Nat.lt_succ_self _
              · intro sn' hsn'
                dsimp only at hsn'
                rw [hS] at hsn'
                cases Option.some.inj hsn'
                exact snapProven_mono (Nat.le_succ _) (hwf.snap_prov tid tk _ hT hS)
              · intro o hro
                dsimp only at hro
                rcases hmr : sn.must_revalidate with _ | _
                · rw [hmr] at hro
                  simp only [Bool.false_eq_true, if_false] at hro
                  cases Option.some.inj hro
                  exact snapProven_mono (Nat.le_succ _) (hwf.snap_prov tid tk sn hT hS)
                · rw [hmr] at hro
                  simp only [if_true] at hro
                  exact outcomeProv_mono (Nat.le_succ _) (hwf.result_prov tid tk o hT hro)
      -- loading k
      · rcases hS : tk.snap with _ | sn
        · simp only [hS] at h
          exact (Option.noConfusion h)
        · simp only [hS] at h
          rcases hScr : s.script k with c | r
          · simp only [hScr] at h
            cases Option.some.inj h
            refine wf_finish c0 s tid tk _ _ _ hwf hT ?_ ?_ ?_ ?_ ?_ ?_ ?_
            · rw [hP]
              rfl
            · rfl
            · exact hS.symm
            · intro sn' o hsn' hmr hro
              dsimp only at hsn' hro
              cases Option.some.inj hsn'
              rw [hmr] at hro
              simp only [Bool.false_eq_true, if_false] at hro
              have hres := hwf.opt_loading tid tk sn k hT hS hmr hP
              rw [hres] at hro
              cases Option.some.inj hro
              rfl
            · exact hwf.cached_prov
            · intro f hf
              cases Option.some.inj hf
              exact ⟨hwf.loading_lt tid tk k hT hP, hScr⟩
            · intro o hro
              dsimp only at hro
              rcases hmr : sn.must_revalidate with _ | _
              · rw [hmr] at hro
                simp only [Bool.false_eq_true, if_false] at hro
                exact hwf.result_prov tid tk o hT hro
              · rw [hmr] at hro
                simp only [if_true] at hro
                cases Option.some.inj hro
                exact ⟨hwf.loading_lt tid tk k hT hP, hScr⟩
          · simp only [hScr] at h
            cases Option.some.inj h
            refine wf_finish c0 s tid tk _ _ _ hwf hT ?_ ?_ ?_ ?_ ?_ ?_ ?_
            · rw [hP]
              rfl
            · rfl
            · exact hS.symm
            · intro sn' o hsn' hmr hro
              dsimp only at hsn' hro
              cases Option.some.inj hsn'
              rw [hmr] at hro
              simp only [Bool.false_eq_true, if_false] at hro
              have hres := hwf.opt_loading tid tk sn k hT hS hmr hP
              rw [hres] at hro
              cases Option.some.inj hro
              rfl
            · exact Or.inr ⟨k, hwf.loading_lt tid tk k hT hP, hScr⟩
            · intro f hf
              exact absurd hf (by simp)
            · intro o hro
              dsimp only at hro
              rcases hmr : sn.must_revalidate with _ | _
              · rw [hmr] at hro
                simp only [Bool.false_eq_true, if_false] at hro
                exact hwf.result_prov tid tk o hT hro
              · rw [hmr] at hro
                simp only [if_true] at hro
                cases Option.some.inj hro
                exact Or.inr ⟨k, hwf.loading_lt tid tk k hT hP, hScr⟩
      -- done: no step
      · exact absurd h (by simp)

lemma wf_mkInit {Data : Type} (retry : Nat) (c0 : DataLoadResult Data)
    (now0 calls0 : Nat) (script : Nat → Except Nat (DataLoadResult Data))
    (times : List Nat) : WF c0 (mkInit retry c0 now0 calls0 script times) := by
  have htk : ∀ tid tk,
      (mkInit retry c0 now0 calls0 script times).tasks tid = some tk →
      tk.snap = none ∧ tk.phase = .start ∧ tk.result = none := by
    intro tid tk h
    dsimp only [mkInit] at h
    rcases Option.map_eq_some'.mp h with ⟨t, hget, hre⟩
    cases hre
    exact ⟨rfl, rfl, rfl⟩
  refine ⟨?_, ?_, ?_, ?_, ?_, ?_, ?_, ?_, ?_, ?_, ?_, ?_, ?_⟩
  · intro tid tk h hown
    obtain ⟨hs, hp, hr⟩ := htk tid tk h
    rw [hp] at hown
    simp [Phase.owns] at hown
  · intro tid htid
    exact absurd htid (List.not_mem_nil tid)
  · exact List.nodup_nil
  · intro hne
    exact absurd rfl hne
  · intro tid tk h _
    exact (htk tid tk h).2.2
  · intro tid tk sn h hsn _
    rw [(htk tid tk h).1] at hsn
    exact absurd hsn (by simp)
  · intro tid tk sn o h hsn _ _
    rw [(htk tid tk h).1] at hsn
    exact absurd hsn (by simp)
  · intro tid tk sn k h hsn _ _
    rw [(htk tid tk h).1] at hsn
    exact absurd hsn (by simp)
  · intro tid tk k h hph
    rw [(htk tid tk h).2.1] at hph
    exact absurd hph (by simp)
  · exact Or.inl rfl
  · intro f hf
    dsimp only [mkInit] at hf
    exact absurd hf (by simp)
  · intro tid tk sn h hsn
    rw [(htk tid tk h).1] at hsn
    exact absurd hsn (by simp)
  · intro tid tk o h hro
    rw [(htk tid tk h).2.2] at hro
    exact absurd hro (by simp)

lemma wf_run {Data : Type} (c0 : DataLoadResult Data) :
    ∀ (acts : List Act) (s s' : Sys Data), WF c0 s → run s acts = some s' →
      WF c0 s' := by
  intro acts
  induction acts with
  | nil =>
    intro s s' hwf h
    cases Option.some.inj h
    exact hwf
  | cons a rest ih =>
    intro s s' hwf h
    simp only [run] at h
    rcases hs : step s a with _ | s1
    · simp only [hs] at h
      exact (Option.noConfusion h)
    · simp only [hs] at h
      exact ih s1 s' (wf_step c0 hwf hs) h

lemma outcomeOf_eq {Data : Type} {s : Sys Data} {E0 : Option Failure}
    {C0 : DataLoadResult Data} (hE : s.revalidation_error = E0)
    (hC : s.cached = C0) : outcomeOf s = attemptOutcome E0 C0 := by
  unfold outcomeOf attemptOutcome
  rw [hE, hC]

lemma stepTask_active {Data : Type} {s s' : Sys Data} {tid : Nat}
    (hstep : stepTask s tid = some s') :
    ∃ tk, s.tasks tid = some tk ∧ tk.phase ≠ .done ∧ tk.phase ≠ .queued := by
  rcases hT : s.tasks tid with _ | tk
  · simp only [stepTask, hT] at hstep
    exact (Option.noConfusion hstep)
  · refine ⟨tk, rfl, ?_, ?_⟩
    · intro hph
      simp only [stepTask, hT, hph] at hstep
      exact (Option.noConfusion hstep)
    · intro hph
      simp only [stepTask, hT, hph] at hstep
      exact (Option.noConfusion hstep)

lemma releaseLock_tasks_pres {Data : Type} {M : Sys Data} {j : Nat}
    {tkj : Task Data}
    (hq : ∀ x, x ∈ M.queue → ∃ tkx, M.tasks x = some tkx ∧ tkx.phase = .queued)
    (hold : M.tasks j = some tkj) (hnq : tkj.phase ≠ .queued) :
    (releaseLock M).tasks j = some tkj := by
  rcases hq0 : M.queue with _ | ⟨w, rest⟩
  · rw [releaseLock_eq_nil M hq0]
    exact hold
  · have hw : w ∈ M.queue := by
      rw [hq0]
      exact List.mem_cons_self w rest
    obtain ⟨tkw, hTw, hPw⟩ := hq w hw
    rw [releaseLock_eq_cons M w rest tkw hq0 hTw]
    dsimp only
    by_cases hjw : j = w
    · subst hjw
      rw [hold] at hTw
      cases Option.some.inj hTw
      exact absurd hPw hnq
    · rw [updFun_ne _ _ _ hjw]
      exact hold

lemma stepTask_tasks {Data : Type} (c0 : DataLoadResult Data)
    {s s' : Sys Data} {tid : Nat} (hwf : WF c0 s)
    (hstep : stepTask s tid = some s') :
    ∀ j tkj, j ≠ tid → s.tasks j = some tkj → tkj.phase ≠ .queued →
      s'.tasks j = some tkj := by
  intro j tkj hne hold hnq
  rcases hT : s.tasks tid with _ | tk
  · simp only [stepTask, hT] at hstep
    exact (Option.noConfusion hstep)
  · simp only [stepTask, hT] at hstep
    have hMq : tk.phase ≠ .queued → ∀ (tknew : Task Data) x, x ∈ s.queue →
        ∃ tkx, updFun s.tasks tid tknew x = some tkx ∧ tkx.phase = .queued := by
      intro hnqtk tknew x hx
      obtain ⟨tkx, holdx, hqx⟩ := hwf.queue_mem x hx
      by_cases hxe : x = tid
      · subst hxe
        rw [hT] at holdx
        cases Option.some.inj holdx
        exact absurd hqx hnqtk
      · exact ⟨tkx, by rw [updFun_ne _ _ _ hxe]; exact holdx, hqx⟩
    have hMj : ∀ (tknew : Task Data), updFun s.tasks tid tknew j = some tkj := by
      intro tknew
      rw [updFun_ne _ _ _ hne]
      exact hold
    rcases hP : tk.phase with _ | _ | _ | _ | _ | _ | k | _
    all_goals simp only [hP] at hstep
    · by_cases hc : s.cached.valid_until < tk.time
      · rw [if_pos hc] at hstep
        cases Option.some.inj hstep
        exact hMj _
      · rw [if_neg hc] at hstep
        cases Option.some.inj hstep
        exact hMj _
    · rcases hS : tk.snap with _ | sn
      · simp only [hS] at hstep
        exact (Option.noConfusion hstep)
      · simp only [hS] at hstep
        by_cases h1 : s.lockHolder = none
        · rw [if_pos h1] at hstep
          cases Option.some.inj hstep
          exact hMj _
        · rw [if_neg h1] at hstep
          by_cases h2 : sn.must_revalidate = true
          · rw [if_pos h2] at hstep
            cases Option.some.inj hstep
            exact hMj _
          · rw [if_neg h2] at hstep
            cases Option.some.inj hstep
            exact hMj _
    · by_cases h1 : s.lockHolder = none
      · rw [if_pos h1] at hstep
        cases Option.some.inj hstep
        exact hMj _
      · rw [if_neg h1] at hstep
        cases Option.some.inj hstep
        exact hMj _
    · exact (Option.noConfusion hstep)
    · cases Option.some.inj hstep
      exact releaseLock_tasks_pres (hMq (by rw [hP]; simp) _) (hMj _) hnq
    · rcases hS : tk.snap with _ | sn
      · simp only [hS] at hstep
        exact (Option.noConfusion hstep)
      · simp only [hS] at hstep
        rcases hE : s.revalidation_error with _ | f
        · simp only [hE] at hstep
          cases Option.some.inj hstep
          exact hMj _
        · simp only [hE] at hstep
          by_cases hb : tk.time < f.timestamp + s.retry_interval
          · rw [if_pos hb] at hstep
            cases Option.some.inj hstep
            exact releaseLock_tasks_pres (hMq (by rw [hP]; simp) _) (hMj _) hnq
          · rw [if_neg hb] at hstep
            cases Option.some.inj hstep
            exact hMj _
    · rcases hS : tk.snap with _ | sn
      · simp only [hS] at hstep
        exact (Option.noConfusion hstep)
      · simp only [hS] at hstep
        rcases hScr : s.script k with c | rr
        · simp only [hScr] at hstep
          cases Option.some.inj hstep
          exact releaseLock_tasks_pres (hMq (by rw [hP]; simp) _) (hMj _) hnq
        · simp only [hScr] at hstep
          cases Option.some.inj hstep
          exact releaseLock_tasks_pres (hMq (by rw [hP]; simp) _) (hMj _) hnq
    · exact (Option.noConfusion hstep)

lemma stepTask_while_held {Data : Type} (c0 : DataLoadResult Data)
    {s s' : Sys Data} {tid hd : Nat} (hwf : WF c0 s)
    (hstep : stepTask s tid = some s')
    (hL : s.lockHolder = some hd) (hne : tid ≠ hd) :
    s'.revalidation_error = s.revalidation_error ∧
    s'.cached = s.cached ∧
    s'.lockHolder = s.lockHolder ∧
    (s'.queue = s.queue ∨ (s'.queue = s.queue ++ [tid] ∧
      ∃ tk, s.tasks tid = some tk ∧ tk.phase = .awaitLock)) ∧
    (∀ j, j ≠ tid → s'.tasks j = s.tasks j) := by
  have hnn : ¬ s.lockHolder = none := by
    rw [hL]
    simp
  rcases hT : s.tasks tid with _ | tk
  · simp only [stepTask, hT] at hstep
    exact (Option.noConfusion hstep)
  · simp only [stepTask, hT] at hstep
    rcases hP : tk.phase with _ | _ | _ | _ | _ | _ | k | _
    all_goals simp only [hP] at hstep
    · by_cases hc : s.cached.valid_until < tk.time
      · rw [if_pos hc] at hstep
        cases Option.some.inj hstep
        exact ⟨rfl, rfl, rfl, Or.inl rfl,
          fun j hj => by dsimp only; rw [updFun_ne _ _ _ hj]⟩
      · rw [if_neg hc] at hstep
        cases Option.some.inj hstep
        exact ⟨rfl, rfl, rfl, Or.inl rfl,
          fun j hj => by dsimp only; rw [updFun_ne _ _ _ hj]⟩
    · rcases hS : tk.snap with _ | sn
      · simp only [hS] at hstep
        exact (Option.noConfusion hstep)
      · simp only [hS] at hstep
        rw [if_neg hnn] at hstep
        by_cases h2 : sn.must_revalidate = true
        · rw [if_pos h2] at hstep
          cases Option.some.inj hstep
          exact ⟨rfl, rfl, rfl, Or.inl rfl,
            fun j hj => by dsimp only; rw [updFun_ne _ _ _ hj]⟩
        · rw [if_neg h2] at hstep
          cases Option.some.inj hstep
          exact ⟨rfl, rfl, rfl, Or.inl rfl,
            fun j hj => by dsimp only; rw [updFun_ne _ _ _ hj]⟩
    · rw [if_neg hnn] at hstep
      cases Option.some.inj hstep
      exact ⟨rfl, rfl, rfl, Or.inr ⟨rfl, ⟨tk, rfl, hP⟩⟩,
        fun j hj => by dsimp only; rw [updFun_ne _ _ _ hj]⟩
    · exact (Option.noConfusion hstep)
    · have hown := hwf.owner_holds tid tk hT (by rw [hP]; rfl)
      rw [hL] at hown
      exact absurd (Option.some.inj hown).symm hne
    · have hown := hwf.owner_holds tid tk hT (by rw [hP]; rfl)
      rw [hL] at hown
      exact absurd (Option.some.inj hown).symm hne
    · have hown := hwf.owner_holds tid tk hT (by rw [hP]; rfl)
      rw [hL] at hown
      exact absurd (Option.some.inj hown).symm hne
    · exact (Option.noConfusion hstep)

lemma doneWith_step {Data : Type} (c0 : DataLoadResult Data)
    {s s' : Sys Data} {a : Act} (hwf : WF c0 s) (hstep : step s a = some s')
    {w : Nat} {o : LoadOutcome Data} (hdw : doneWith s w o) :
    doneWith s' w o := by
  obtain ⟨tkw, hTw, hPw, hRw⟩ := hdw
  cases a with
  | tick =>
    simp only [step] at hstep
    cases Option.some.inj hstep
    exact ⟨tkw, hTw, hPw, hRw⟩
  | act tid =>
    simp only [step] at hstep
    obtain ⟨tka, hTa, hnd_a, hnq_a⟩ := stepTask_active hstep
    have hne : w ≠ tid := by
      intro he
      subst he
      rw [hTw] at hTa
      cases Option.some.inj hTa
      exact hnd_a hPw
    refine ⟨tkw, stepTask_tasks c0 hwf hstep w tkw hne hTw ?_, hPw, hRw⟩
    rw [hPw]
    simp

lemma chain_base {Data : Type} (c0 : DataLoadResult Data) {s1 s2 : Sys Data}
    {r k : Nat} {tk : Task Data} (hwf : WF c0 s1)
    (hT : s1.tasks r = some tk) (hP : tk.phase = .loading k)
    (hstep : stepTask s1 r = some s2) :
    Chain s1.queue s2.revalidation_error s2.cached s2 := by
  simp only [stepTask, hT, hP] at hstep
  rcases hS : tk.snap with _ | sn
  · simp only [hS] at hstep
    exact (Option.noConfusion hstep)
  · simp only [hS] at hstep
    rcases hScr : s1.script k with c | rr
    all_goals simp only [hScr] at hstep
    all_goals cases Option.some.inj hstep
    all_goals rcases hq0 : s1.queue with _ | ⟨h1, tl1⟩
    · rw [releaseLock_eq_nil _ rfl]
      refine ⟨[], ?_, Or.inl rfl⟩
      intro w hw _
      exact absurd hw (List.not_mem_nil w)
    · have h1mem : h1 ∈ s1.queue := by
        rw [hq0]
        exact List.mem_cons_self h1 tl1
      obtain ⟨tk1, hT1, hP1⟩ := hwf.queue_mem h1 h1mem
      have hne1 : h1 ≠ r := by
        intro he
        subst he
        rw [hT] at hT1
        cases Option.some.inj hT1
        rw [hP] at hP1
        exact absurd hP1 (by simp)
      rw [releaseLock_eq_cons _ h1 tl1 tk1 rfl
        (by dsimp only; rw [updFun_ne _ _ _ hne1]; exact hT1)]
      refine ⟨h1 :: tl1, ?_, Or.inr ⟨h1, tl1, rfl, rfl, rfl, rfl,
        ⟨_, by dsimp only; exact updFun_self _ _ _, rfl⟩, [],
        (List.append_nil tl1).symm, fun x hx => absurd hx (List.not_mem_nil x)⟩⟩
      intro w hw hnr
      exact absurd hw hnr
    · rw [releaseLock_eq_nil _ rfl]
      refine ⟨[], ?_, Or.inl rfl⟩
      intro w hw _
      exact absurd hw (List.not_mem_nil w)
    · have h1mem : h1 ∈ s1.queue := by
        rw [hq0]
        exact List.mem_cons_self h1 tl1
      obtain ⟨tk1, hT1, hP1⟩ := hwf.queue_mem h1 h1mem
      have hne1 : h1 ≠ r := by
        intro he
        subst he
        rw [hT] at hT1
        cases Option.some.inj hT1
        rw [hP] at hP1
        exact absurd hP1 (by simp)
      rw [releaseLock_eq_cons _ h1 tl1 tk1 rfl
        (by dsimp only; rw [updFun_ne _ _ _ hne1]; exact hT1)]
      refine ⟨h1 :: tl1, ?_, Or.inr ⟨h1, tl1, rfl, rfl, rfl, rfl,
        ⟨_, by dsimp only; exact updFun_self _ _ _, rfl⟩, [],
        (List.append_nil tl1).symm, fun x hx => absurd hx (List.not_mem_nil x)⟩⟩
      intro w hw hnr
      exact absurd hw hnr

lemma chain_step {Data : Type} (c0 : DataLoadResult Data) (q1 : List Nat)
    (E0 : Option Failure) (C0 : DataLoadResult Data) {s s' : Sys Data}
    {a : Act} (hwf : WF c0 s) (hch : Chain q1 E0 C0 s)
    (hstep : step s a = some s') : Chain q1 E0 C0 s' := by
  obtain ⟨rem, hdone, hrest⟩ := hch
  rcases hrest with hnil | ⟨hd, tl, hrm, hE, hC, hL, ⟨tkh, hTh, hPh⟩, qnew, hQ, hqn⟩
  · subst hnil
    refine ⟨[], ?_, Or.inl rfl⟩
    intro w hw _
    exact doneWith_step c0 hwf hstep (hdone w hw (List.not_mem_nil w))
  · subst hrm
    cases a with
    | tick =>
      simp only [step] at hstep
      cases Option.some.inj hstep
      exact ⟨hd :: tl, hdone,
        Or.inr ⟨hd, tl, rfl, hE, hC, hL, ⟨tkh, hTh, hPh⟩, qnew, hQ, hqn⟩⟩
    | act tid =>
      simp only [step] at hstep
      by_cases hth : tid = hd
      · subst hth
        simp only [stepTask, hTh, hPh] at hstep
        cases Option.some.inj hstep
        have hqM : ∀ x, x ∈ s.queue →
            ∃ tkx, updFun s.tasks tid
              { tkh with phase := .done, result := some (outcomeOf s) } x
              = some tkx ∧ tkx.phase = .queued := by
          intro x hx
          obtain ⟨tkx, hTx2, hPx2⟩ := hwf.queue_mem x hx
          have hxne : x ≠ tid := by
            intro he
            subst he
            rw [hTh] at hTx2
            cases Option.some.inj hTx2
            rw [hPh] at hPx2
            exact absurd hPx2 (by simp)
          exact ⟨tkx, by rw [updFun_ne _ _ _ hxne]; exact hTx2, hPx2⟩
        rcases tl with _ | ⟨t, tl2⟩
        · refine ⟨[], ?_, Or.inl rfl⟩
          intro w hw _
          by_cases hwh : w = tid
          · subst hwh
            refine ⟨_, releaseLock_tasks_pres hqM
              (by dsimp only; exact updFun_self _ _ _) (by simp), rfl, ?_⟩
            rw [outcomeOf_eq hE hC]
          · obtain ⟨tkw, hTw, hPw, hRw⟩ := hdone w hw (by simp [hwh])
            refine ⟨tkw, releaseLock_tasks_pres hqM ?_ ?_, hPw, hRw⟩
            · dsimp only
              rw [updFun_ne _ _ _ hwh]
              exact hTw
            · rw [hPw]
              simp
        · have htmem : t ∈ s.queue := by
            rw [hQ]
            exact List.mem_cons_self t (tl2 ++ qnew)
          obtain ⟨tkt, hTt, hPt⟩ := hwf.queue_mem t htmem
          have htne : t ≠ tid := by
            intro he
            subst he
            rw [hTh] at hTt
            cases Option.some.inj hTt
            rw [hPh] at hPt
            exact absurd hPt (by simp)
          rw [releaseLock_eq_cons _ t (tl2 ++ qnew) tkt
            (by dsimp only; exact hQ)
            (by dsimp only; rw [updFun_ne _ _ _ htne]; exact hTt)]
          refine ⟨t :: tl2, ?_, Or.inr ⟨t, tl2, rfl, hE, hC, rfl,
            ⟨_, by dsimp only; exact updFun_self _ _ _, rfl⟩, qnew, rfl, hqn⟩⟩
          intro w hw hnr
          by_cases hwh : w = tid
          · subst hwh
            refine ⟨{ tkh with phase := .done, result := some (outcomeOf s) },
              ?_, rfl, ?_⟩
            · dsimp only
              rw [updFun_ne _ _ _ (Ne.symm htne), updFun_self]
            · rw [outcomeOf_eq hE hC]
          · obtain ⟨tkw, hTw, hPw, hRw⟩ := hdone w hw (by
              intro hin
              rcases List.mem_cons.mp hin with he | htl2
              · exact hwh he
              · exact hnr htl2)
            have hwt : w ≠ t := by
              intro he
              subst he
              rw [hTt] at hTw
              cases Option.some.inj hTw
              rw [hPw] at hPt
              exact absurd hPt (by simp)
            refine ⟨tkw, ?_, hPw, hRw⟩
            dsimp only
            rw [updFun_ne _ _ _ hwt]
            rw [updFun_ne _ _ _ hwh]
            exact hTw
      · obtain ⟨hE', hC', hL', hQalt, hTpres⟩ :=
          stepTask_while_held c0 hwf hstep hL hth
        obtain ⟨tka, hTa, hnd_a, hnq_a⟩ := stepTask_active hstep
        have hdone' : ∀ w ∈ q1, w ∉ hd :: tl →
            doneWith s' w (attemptOutcome E0 C0) := by
          intro w hw hnr
          obtain ⟨tkw, hTw, hPw, hRw⟩ := hdone w hw hnr
          have hwt : w ≠ tid := by
            intro he
            subst he
            rw [hTw] at hTa
            cases Option.some.inj hTa
            exact hnd_a hPw
          exact ⟨tkw, by rw [hTpres w hwt]; exact hTw, hPw, hRw⟩
        have hTh' : s'.tasks hd = some tkh := by
          rw [hTpres hd (fun he => hth he.symm)]
          exact hTh
        rcases hQalt with hq1 | ⟨hq2, tkx, hTx, hPx⟩
        · exact ⟨hd :: tl, hdone', Or.inr ⟨hd, tl, rfl,
            by rw [hE']; exact hE, by rw [hC']; exact hC,
            by rw [hL']; exact hL, ⟨tkh, hTh', hPh⟩, qnew,
            by rw [hq1]; exact hQ, hqn⟩⟩
        · have htid_not : tid ∉ q1 := by
            intro hin
            by_cases h1 : tid ∈ hd :: tl
            · rcases List.mem_cons.mp h1 with he | htl
              · exact hth he
              · have htq : tid ∈ s.queue := by
                  rw [hQ]
                  exact List.mem_append_left _ htl
                obtain ⟨tkq, hTq, hPq⟩ := hwf.queue_mem tid htq
                rw [hTx] at hTq
                cases Option.some.inj hTq
                rw [hPx] at hPq
                exact absurd hPq (by simp)
            · obtain ⟨tkw, hTw, hPw, hRw⟩ := hdone tid hin h1
              rw [hTx] at hTw
              cases Option.some.inj hTw
              rw [hPx] at hPw
              exact absurd hPw (by simp)
          refine ⟨hd :: tl, hdone', Or.inr ⟨hd, tl, rfl,
            by rw [hE']; exact hE, by rw [hC']; exact hC,
            by rw [hL']; exact hL, ⟨tkh, hTh', hPh⟩, qnew ++ [tid], ?_, ?_⟩⟩
          · rw [hq2, hQ, List.append_assoc]
          · intro x hx
            rcases List.mem_append.mp hx with hx1 | hx2
            · exact hqn x hx1
            · have hxe : x = tid := List.mem_singleton.mp hx2
              subst hxe
              exact htid_not

lemma chain_run {Data : Type} (c0 : DataLoadResult Data) (q1 : List Nat)
    (E0 : Option Failure) (C0 : DataLoadResult Data) :
    ∀ (acts : List Act) (s s' : Sys Data), WF c0 s → Chain q1 E0 C0 s →
      run s acts = some s' → Chain q1 E0 C0 s' := by
  intro acts
  induction acts with
  | nil =>
    intro s s' hwf hch h
    cases Option.some.inj h
    exact hch
  | cons a rest ih =>
    intro s s' hwf hch h
    simp only [run] at h
    rcases hs : step s a with _ | s1
    · simp only [hs] at h
      exact (Option.noConfusion h)
    · simp only [hs] at h
      exact ih s1 s' (wf_step c0 hwf hs) (chain_step c0 q1 E0 C0 hwf hch hs) h

/-- C1 counterexample: two callers concurrently invoke `load_with_time` on
the same stale snapshot with `must_revalidate = true` (both have read it
before either refresh finished — caller 1 takes its first step before caller
0 completes), yet `load_data` is invoked twice, not exactly once, and the two
callers return values published by two different attempts: after caller 0's
attempt completes and releases the gate, caller 1 — which read the old
snapshot before the publication — wins `try_lock` and starts a second
attempt, because `load_with_time` never re-checks freshness after acquiring
the gate. -/
theorem C1_single_flight_counterexample :
    c1snap0.must_revalidate = true ∧
    ((c1init.tasks 0).map Task.time = some 11) ∧
    ((c1init.tasks 1).map Task.time = some 11) ∧
    c1init.cached.valid_until < 11 ∧
    ((run c1init c1acts).map (fun s => (s.calls,
        (s.tasks 0).bind Task.result, (s.tasks 1).bind Task.result))
      = some (2, some (.ok c1snap1), some (.ok c1snap2))) :=
  ⟨rfl, rfl, rfl, by decide, by decide⟩

/-- C1 (amended): at most one refresh attempt (one call into the data
provider's `load_data`) is outstanding at any instant — in every reachable
state at most one caller is in the `loading` phase, because the revalidator
gate is held for the whole attempt — and every result any caller returns is
either `Ok` of a value some attempt published (or the initially cached
value) or the shared error recorded by some attempt.  (`load_data` may
however be invoked more than once in total when stale readers interleave
around an attempt's completion, as the counterexample shows.) -/
theorem C1_attempts_serialized :
    ∀ (Data : Type) (retry : Nat) (c0 : DataLoadResult Data)
      (now0 calls0 : Nat) (script : Nat → Except Nat (DataLoadResult Data))
      (times : List Nat) (acts : List Act) (s : Sys Data),
      run (mkInit retry c0 now0 calls0 script times) acts = some s →
      (∀ t1 t2 tk1 tk2 k1 k2, s.tasks t1 = some tk1 →
        tk1.phase = .loading k1 → s.tasks t2 = some tk2 →
        tk2.phase = .loading k2 → t1 = t2) ∧
      (∀ tid tk o, s.tasks tid = some tk → tk.result = some o →
        outcomeProv c0 s.script s.calls o) := by
  intro Data retry c0 now0 calls0 script times acts s hrun
  have hwf := wf_run c0 acts _ s (wf_mkInit retry c0 now0 calls0 script times) hrun
  constructor
  · intro t1 t2 tk1 tk2 k1 k2 h1 hp1 h2 hp2
    have ha := hwf.owner_holds t1 tk1 h1 (by rw [hp1]; rfl)
    have hb := hwf.owner_holds t2 tk2 h2 (by rw [hp2]; rfl)
    rw [ha] at hb
    exact Option.some.inj hb
  · intro tid tk o htk hro
    exact hwf.result_prov tid tk o htk hro

/-- Witness for the serialization theorem: in the counterexample run, caller
0's result traces back to an attempt of the provider script. -/
theorem C1_attempts_serialized_witness :
    outcomeProv c1snap0 c1script 2 (LoadOutcome.ok c1snap1) := by
  have h := (C1_attempts_serialized Nat 5 c1snap0 0 0 c1script [11, 11]
    c1acts _ rfl).2
  exact h 0 _ (LoadOutcome.ok c1snap1) rfl rfl

/-- C3: a caller whose snapshot at the moment of the read does not mandate
revalidation never has an error surfaced — any result it produces is `Ok` of
the snapshot it read — and it never blocks: it is never suspended on the
revalidator mutex (`awaitLock`/`queued`/`holdingWait`), and while its own
spawned refresh attempt is still loading, its result is already set. -/
theorem C3_optional_never_blocks_nor_errors :
    ∀ (Data : Type) (retry : Nat) (c0 : DataLoadResult Data)
      (now0 calls0 : Nat) (script : Nat → Except Nat (DataLoadResult Data))
      (times : List Nat) (acts : List Act) (s : Sys Data)
      (tid : Nat) (tk : Task Data) (sn : DataLoadResult Data),
      run (mkInit retry c0 now0 calls0 script times) acts = some s →
      s.tasks tid = some tk → tk.snap = some sn →
      sn.must_revalidate = false →
      (∀ o, tk.result = some o → o = .ok sn) ∧
      tk.phase ≠ .awaitLock ∧ tk.phase ≠ .queued ∧ tk.phase ≠ .holdingWait ∧
      (∀ k, tk.phase = .loading k → tk.result = some (.ok sn)) := by
  intro Data retry c0 now0 calls0 script times acts s tid tk sn hrun htk hsn hmr
  have hwf := wf_run c0 acts _ s (wf_mkInit retry c0 now0 calls0 script times) hrun
  refine ⟨?_, ?_, ?_, ?_, ?_⟩
  · intro o hro
    exact hwf.opt_result tid tk sn o htk hsn hmr hro
  · intro hph
    have hw := hwf.wait_mr tid tk sn htk hsn (by rw [hph]; rfl)
    rw [hmr] at hw
    exact absurd hw (by simp)
  · intro hph
    have hw := hwf.wait_mr tid tk sn htk hsn (by rw [hph]; rfl)
    rw [hmr] at hw
    exact absurd hw (by simp)
  · intro hph
    have hw := hwf.wait_mr tid tk sn htk hsn (by rw [hph]; rfl)
    rw [hmr] at hw
    exact absurd hw (by simp)
  · intro k hph
    exact hwf.opt_loading tid tk sn k htk hsn hmr hph

/-- Witness for the optional-revalidation theorem: after reading the stale
optional snapshot, winning the gate and spawning the refresh, the caller is
in the loading phase yet not waiting, and its result is already `Ok` of its
own stale snapshot. -/
theorem C3_optional_never_blocks_nor_errors_witness :
    Phase.loading 0 ≠ Phase.queued ∧
    (some (LoadOutcome.ok c3snap0) : Option (LoadOutcome Nat))
      = some (.ok c3snap0) := by
  have h := C3_optional_never_blocks_nor_errors Nat 5 c3snap0 0 0
    (fun _ => .error 1) [11] c3acts _ 0 _ c3snap0 rfl rfl rfl rfl
  exact ⟨h.2.2.1, h.2.2.2.2 0 rfl⟩

/-- C7: a caller that found its must-revalidate snapshot stale, failed
`try_lock` because a refresh was in progress, and was queued on the gate,
returns — whatever happens after the attempt completes — exactly the
attempt's outcome: the shared failure the attempt recorded, or `Ok` of the
snapshot it published.  All waiters queued on the same attempt therefore
observe the same outcome.  The second conjunct is the per-caller behavior:
a waiter holding the gate returns the recorded shared failure if one is set,
otherwise `Ok` of the currently published snapshot. -/
theorem C7_waiters_share_attempt_outcome :
    (∀ (Data : Type) (retry : Nat) (c0 : DataLoadResult Data)
       (now0 calls0 : Nat) (script : Nat → Except Nat (DataLoadResult Data))
       (times : List Nat) (acts1 : List Act) (s1 : Sys Data) (r : Nat)
       (tk : Task Data) (k : Nat) (s2 : Sys Data) (acts2 : List Act)
       (s3 : Sys Data) (w : Nat) (tk3 : Task Data) (o : LoadOutcome Data),
       run (mkInit retry c0 now0 calls0 script times) acts1 = some s1 →
       s1.tasks r = some tk → tk.phase = .loading k →
       stepTask s1 r = some s2 →
       w ∈ s1.queue →
       run s2 acts2 = some s3 →
       s3.tasks w = some tk3 → tk3.result = some o →
       o = attemptOutcome s2.revalidation_error s2.cached) ∧
    (∀ (Data : Type) (s s' : Sys Data) (tid : Nat) (tk : Task Data),
       s.tasks tid = some tk → tk.phase = .holdingWait →
       stepTask s tid = some s' →
       (s'.tasks tid).bind Task.result = some (outcomeOf s)) := by
  constructor
  · intro Data retry c0 now0 calls0 script times acts1 s1 r tk k s2 acts2
      s3 w tk3 o hrun1 hT1 hP1 hstep2 hwq hrun2 hT3 hres3
    have hwf1 := wf_run c0 acts1 _ s1
      (wf_mkInit retry c0 now0 calls0 script times) hrun1
    have hwf2 : WF c0 s2 := wf_step c0 hwf1 (show step s1 (.act r) = some s2 from hstep2)
    have hwf3 := wf_run c0 acts2 _ s3 hwf2 hrun2
    have hbase := chain_base c0 hwf1 hT1 hP1 hstep2
    have hch3 := chain_run c0 s1.queue s2.revalidation_error s2.cached
      acts2 s2 s3 hwf2 hbase hrun2
    obtain ⟨rem, hdone, hrest⟩ := hch3
    by_cases hwrem : w ∈ rem
    · rcases hrest with hnil | ⟨hd, tl, hrm, hE, hC, hL, ⟨tkh, hTh, hPh⟩, qnew, hQ, hqn⟩
      · subst hnil
        exact absurd hwrem (List.not_mem_nil w)
      · subst hrm
        rcases List.mem_cons.mp hwrem with he | htl
        · subst he
          rw [hT3] at hTh
          cases Option.some.inj hTh
          have := hwf3.res_none w tk3 hT3 (by rw [hPh]; rfl)
          rw [this] at hres3
          exact absurd hres3 (by simp)
        · have hwq3 : w ∈ s3.queue := by
            rw [hQ]
            exact List.mem_append_left _ htl
          obtain ⟨tkq, hTq, hPq⟩ := hwf3.queue_mem w hwq3
          rw [hT3] at hTq
          cases Option.some.inj hTq
          have := hwf3.res_none w tk3 hT3 (by rw [hPq]; rfl)
          rw [this] at hres3
          exact absurd hres3 (by simp)
    · obtain ⟨tkw, hTw, hPw, hRw⟩ := hdone w hwq hwrem
      rw [hT3] at hTw
      cases Option.some.inj hTw
      rw [hRw] at hres3
      exact (Option.some.inj hres3).symm
  · intro Data s s' tid tk htk hph hstep
    simp only [stepTask, htk, hph] at hstep
    cases Option.some.inj hstep
    rw [releaseLock_result]
    dsimp only
    rw [updFun_self]
    rfl

/-- Witness for the waiter fan-out theorem: caller 0 refreshes while caller
1 queues; after the attempt publishes `c7snap1`, the drained waiter returns
exactly `Ok c7snap1`. -/
theorem C7_waiters_share_attempt_outcome_witness :
    (LoadOutcome.ok c7snap1 : LoadOutcome Nat)
      = attemptOutcome none c7snap1 := by
  have h := C7_waiters_share_attempt_outcome.1 Nat 5 c1snap0 0 0
    (fun _ => .ok c7snap1) [11, 11]
    [Act.act 0, Act.act 0, Act.act 0, Act.act 1, Act.act 1, Act.act 1]
    _ 0 _ 0 _ [Act.act 1] _ 1 _ (LoadOutcome.ok c7snap1)
    rfl rfl rfl rfl (by decide) rfl rfl rfl
  exact h

/-- C2 counterexample: the claim says the fresh path is taken exactly when
`t < snap.valid_until` and the stale path exactly when `t ≥ snap.valid_until`.
At `t = valid_until = 5` the code nevertheless takes the fresh path: caller 0
finishes at once with `Ok` of the cached snapshot, touching neither the lock
nor the provider, even though a recorded failure inside its backoff window
would make the stale path return the shared failure — as caller 1 (same state,
`t = 6 > valid_until`) demonstrates. -/
theorem C2_boundary_counterexample :
    c2sys.cached.valid_until ≤ 5 ∧
    ((stepTask c2sys 0).map (fun s => ((s.tasks 0).map Task.phase,
        (s.tasks 0).bind Task.result, s.lockHolder, s.calls))
      = some (some .done, some (.ok c2snap), none, 0)) ∧
    ((run c2sys [Act.act 1, Act.act 1, Act.act 1]).map
        (fun s => (s.tasks 1).bind Task.result)
      = some (some (.err c2fail))) :=
  ⟨by decide, by decide, by decide⟩

/-- C2 (amended): on its first step a `load_with_time` caller takes the fresh
path — returning `Ok` of the current snapshot with the whole shared state
(lock, provider-call counter, cache, failure record) untouched — exactly when
`t ≤ snap.valid_until`, and moves to the stale/refresh path (towards
`try_lock`) exactly when `t > snap.valid_until`. -/
theorem C2_staleness_boundary :
    ∀ (Data : Type) (s : Sys Data) (tid : Nat) (tk : Task Data),
      s.tasks tid = some tk → tk.phase = .start →
      (tk.time ≤ s.cached.valid_until →
        stepTask s tid = some { s with tasks := (updFun s.tasks tid
          { tk with snap := some s.cached, phase := .done,
                    result := some (.ok s.cached) }) }) ∧
      (s.cached.valid_until < tk.time →
        stepTask s tid = some { s with tasks := (updFun s.tasks tid
          { tk with snap := some s.cached, phase := .tryLock }) }) := by
  intro Data s tid tk htk hph
  constructor
  · intro hle
    have hn : ¬ s.cached.valid_until < tk.time := Nat.not_lt.mpr hle
    simp only [stepTask, htk, hph]
    rw [if_neg hn]
  · intro hlt
    simp only [stepTask, htk, hph]
    rw [if_pos hlt]

/-- Witness for the staleness-boundary theorem at a concrete fresh read. -/
theorem C2_staleness_boundary_witness :
    stepTask w2sys 0 = some { w2sys with tasks := (updFun w2sys.tasks 0
      { w2tk with snap := some w2sys.cached, phase := .done,
                  result := some (.ok w2sys.cached) }) } :=
  (C2_staleness_boundary Nat w2sys 0 w2tk rfl rfl).1 (by decide)

/-- C4: a stale read holding the revalidation lock inside the backoff window
(`t < last_failure.timestamp + retry_interval`) does not call the provider
(the invocation counter is unchanged and the caller finishes without entering
the loading phase); it returns the recorded shared failure itself when the
stale snapshot mandates revalidation, and `Ok` of the stale snapshot
otherwise; the cache and the failure record are untouched. -/
theorem C4_backoff_skips_provider :
    ∀ (Data : Type) (s : Sys Data) (tid : Nat) (tk : Task Data)
      (sn : DataLoadResult Data) (f : Failure),
      s.tasks tid = some tk → tk.phase = .locked → tk.snap = some sn →
      s.revalidation_error = some f →
      tk.time < f.timestamp + s.retry_interval →
      (stepTask s tid).map Sys.calls = some s.calls ∧
      (stepTask s tid).map Sys.cached = some s.cached ∧
      (stepTask s tid).map Sys.revalidation_error = some (some f) ∧
      ((stepTask s tid).bind (fun s1 => (s1.tasks tid).bind Task.result)
        = some (if sn.must_revalidate then LoadOutcome.err f
                else LoadOutcome.ok sn)) := by
  intro Data s tid tk sn f htk hph hsn herr hlt
  simp only [stepTask, htk, hph, hsn, herr]
  rw [if_pos hlt]
  refine ⟨?_, ?_, ?_, ?_⟩
  · simp [releaseLock_calls]
  · simp [releaseLock_cached]
  · simp [releaseLock_error, herr]
  · simp [releaseLock_result, updFun]

/-- Witness for the backoff theorem: with `must_revalidate` set, the caller
gets the recorded shared failure and the provider is not called. -/
theorem C4_backoff_skips_provider_witness :
    (stepTask w4sys 0).map Sys.calls = some w4sys.calls ∧
    (stepTask w4sys 0).map Sys.cached = some w4sys.cached ∧
    (stepTask w4sys 0).map Sys.revalidation_error = some (some w4fail) ∧
    ((stepTask w4sys 0).bind (fun s1 => (s1.tasks 0).bind Task.result)
      = some (if w4snap.must_revalidate then LoadOutcome.err w4fail
              else LoadOutcome.ok w4snap)) :=
  C4_backoff_skips_provider Nat w4sys 0 w4tk w4snap w4fail rfl rfl rfl rfl
    (by decide)

/-- C5: when the provider call of a refresh attempt returns an error, the
cached snapshot is left unchanged — the previously published value remains
current — and the failure record is replaced by a fresh failure wrapping that
error with the current timestamp; clock, retry interval, call counter and
script are untouched. -/
theorem C5_failed_refresh_preserves_cache :
    ∀ (Data : Type) (s : Sys Data) (tid : Nat) (tk : Task Data)
      (sn : DataLoadResult Data) (k c : Nat),
      s.tasks tid = some tk → tk.phase = .loading k → tk.snap = some sn →
      s.script k = .error c →
      (stepTask s tid).map Sys.cached = some s.cached ∧
      (stepTask s tid).map Sys.revalidation_error
        = some (some { cause := c, timestamp := s.now, id := k }) ∧
      (stepTask s tid).map Sys.calls = some s.calls ∧
      (stepTask s tid).map Sys.now = some s.now ∧
      (stepTask s tid).map Sys.retry_interval = some s.retry_interval ∧
      (stepTask s tid).map Sys.script = some s.script := by
  intro Data s tid tk sn k c htk hph hsn hsc
  simp only [stepTask, htk, hph, hsn, hsc]
  refine ⟨?_, ?_, ?_, ?_, ?_, ?_⟩
  · simp [releaseLock_cached]
  · simp [releaseLock_error]
  · simp [releaseLock_calls]
  · simp [releaseLock_now]
  · simp [releaseLock_retry]
  · simp [releaseLock_script]

/-- Witness for the failed-refresh frame theorem. -/
theorem C5_failed_refresh_preserves_cache_witness :
    (stepTask w5sys 0).map Sys.cached = some w5sys.cached ∧
    (stepTask w5sys 0).map Sys.revalidation_error
      = some (some { cause := 4, timestamp := w5sys.now, id := 0 }) ∧
    (stepTask w5sys 0).map Sys.calls = some w5sys.calls ∧
    (stepTask w5sys 0).map Sys.now = some w5sys.now ∧
    (stepTask w5sys 0).map Sys.retry_interval = some w5sys.retry_interval ∧
    (stepTask w5sys 0).map Sys.script = some w5sys.script :=
  C5_failed_refresh_preserves_cache Nat w5sys 0 w5tk w5snap 0 4 rfl rfl rfl rfl

/-- C6: when the provider call of a refresh attempt succeeds, its result is
published as the new current snapshot, the failure record is cleared, and a
triggering caller whose stale snapshot mandated revalidation returns `Ok` of
the newly published value. -/
theorem C6_successful_refresh_publishes :
    ∀ (Data : Type) (s : Sys Data) (tid : Nat) (tk : Task Data)
      (sn : DataLoadResult Data) (k : Nat) (r : DataLoadResult Data),
      s.tasks tid = some tk → tk.phase = .loading k → tk.snap = some sn →
      s.script k = .ok r →
      (stepTask s tid).map Sys.cached = some r ∧
      (stepTask s tid).map Sys.revalidation_error = some none ∧
      (sn.must_revalidate = true →
        (stepTask s tid).bind (fun s1 => (s1.tasks tid).bind Task.result)
          = some (.ok r)) := by
  intro Data s tid tk sn k r htk hph hsn hsc
  simp only [stepTask, htk, hph, hsn, hsc]
  refine ⟨?_, ?_, ?_⟩
  · simp [releaseLock_cached]
  · simp [releaseLock_error]
  · intro hmr
    simp [releaseLock_result, updFun, hmr]

/-- Witness for the successful-refresh theorem. -/
theorem C6_successful_refresh_publishes_witness :
    (stepTask w6sys 0).map Sys.cached = some w6new ∧
    (stepTask w6sys 0).map Sys.revalidation_error = some none ∧
    ((stepTask w6sys 0).bind (fun s1 => (s1.tasks 0).bind Task.result)
      = some (.ok w6new)) :=
  ⟨(C6_successful_refresh_publishes Nat w6sys 0 w5tk w5snap 0 w6new
      rfl rfl rfl rfl).1,
   (C6_successful_refresh_publishes Nat w6sys 0 w5tk w5snap 0 w6new
      rfl rfl rfl rfl).2.1,
   (C6_successful_refresh_publishes Nat w6sys 0 w5tk w5snap 0 w6new
      rfl rfl rfl rfl).2.2 rfl⟩

/-- C8: `RemoteConfig::new` makes exactly one provider call; if it fails the
wrapped source error is propagated and no instance is constructed, and on
success the instance starts with the fetched result cached, no recorded
failure, and the call counter at one. -/
theorem C8_construction :
    ∀ (Data : Type) (retry now0 : Nat)
      (script : Nat → Except Nat (DataLoadResult Data)) (times : List Nat),
      (∀ c, script 0 = .error c →
        new retry now0 script times
          = .error { cause := c, timestamp := now0, id := 0 }) ∧
      (∀ d, script 0 = .ok d →
        new retry now0 script times = .ok (mkInit retry d now0 1 script times) ∧
        (mkInit retry d now0 1 script times).cached = d ∧
        (mkInit retry d now0 1 script times).revalidation_error = none ∧
        (mkInit retry d now0 1 script times).calls = 1) := by
  intro Data retry now0 script times
  constructor
  · intro c hc
    unfold new
    rw [hc]
  · intro d hd
    unfold new
    rw [hd]
    exact ⟨rfl, rfl, rfl, rfl⟩

/-- Witness for the construction theorem, in both the failing and the
succeeding case. -/
theorem C8_construction_witness :
    new 5 100 w8ok [] = .ok (mkInit 5 w8d 100 1 w8ok []) ∧
    (mkInit 5 w8d 100 1 w8ok []).cached = w8d ∧
    (mkInit 5 w8d 100 1 w8ok []).revalidation_error = none ∧
    (mkInit 5 w8d 100 1 w8ok []).calls = 1 ∧
    new 5 100 w8err ([] : List Nat)
      = .error { cause := 3, timestamp := 100, id := 0 } :=
  ⟨((C8_construction Nat 5 100 w8ok []).2 w8d rfl).1,
   ((C8_construction Nat 5 100 w8ok []).2 w8d rfl).2.1,
   ((C8_construction Nat 5 100 w8ok []).2 w8d rfl).2.2.1,
   ((C8_construction Nat 5 100 w8ok []).2 w8d rfl).2.2.2,
   (C8_construction Nat 5 100 w8err []).1 3 rfl⟩

end RemoteConfig

namespace HttpExtractor

/-- C9: `SerdeDataExtractor::extract` on a successful-status response reports
a missing Cache-Control header as `HeaderNotFound(Cache-Control)` — but a
missing Content-Type header is reported as `HeaderNotFound(Cache-Control)`
as well (src/data_providers/http.rs line 324 passes `CACHE_CONTROL` to the
`ok_or` guarding the Content-Type lookup), not as
`HeaderNotFound(Content-Type)`. -/
theorem C9_missing_header_eval :
    extract c9respNoCC 100
      = .error (.HeaderNotFound .cacheControl) ∧
    extract c9respNoCT 100
      = .error (.HeaderNotFound .cacheControl) :=
  ⟨rfl, rfl⟩

/-- C10: a successful-status response with a supported Content-Type, a
deserializable body and a parseable Cache-Control header carrying no max-age
directive extracts successfully, with `valid_until` set to the extraction
time plus a zero duration — so the result counts as stale for every
strictly later instant. -/
theorem C10_no_max_age_immediately_stale :
    ∀ (Data : Type) (resp : Response Data) (now : Nat) (raw : String)
      (cc : CacheControlVal) (ct : String) (d : Data),
      200 ≤ resp.status → resp.status < 300 →
      resp.cacheControl = some (.parsed raw cc) → cc.max_age = none →
      resp.contentType = some ct →
      (ct = "application/json" ∨ ct = "application/toml" ∨
       ct = "application/yaml" ∨ ct = "application/xml") →
      resp.body = .ok d →
      extract resp now
        = .ok { data := d, must_revalidate := cc.must_revalidate,
                valid_until := now + 0 } ∧
      (∀ t : Nat,
        (RemoteConfig.DataLoadResult.valid_until
          { data := d, must_revalidate := cc.must_revalidate,
            valid_until := now + 0 } < t ↔ now < t)) := by
  intro Data resp now raw cc ct d h1 h2 hcc hma hct hsupp hb
  have hstat : ¬ (resp.status < 200 ∨ 300 ≤ resp.status) := by omega
  constructor
  · unfold extract
    rw [if_neg hstat, hcc]
    simp only [parse_cache_control]
    rw [hct]
    rcases hsupp with h | h | h | h <;> subst h <;> rw [hb] <;>
      simp [hma]
  · intro t
    simp

/-- Witness for the no-max-age extraction theorem at a concrete JSON
response. -/
theorem C10_no_max_age_immediately_stale_witness :
    extract w10resp 9
      = .ok { data := 42, must_revalidate := true, valid_until := 9 + 0 } ∧
    (RemoteConfig.DataLoadResult.valid_until
      ({ data := 42, must_revalidate := true, valid_until := 9 + 0 }
        : RemoteConfig.DataLoadResult Nat) < 10 ↔ 9 < 10) :=
  ⟨(C10_no_max_age_immediately_stale Nat w10resp 9 "must-revalidate"
      { must_revalidate := true, max_age := none } "application/json" 42
      (by decide) (by decide) rfl rfl rfl (Or.inl rfl) rfl).1,
   (C10_no_max_age_immediately_stale Nat w10resp 9 "must-revalidate"
      { must_revalidate := true, max_age := none } "application/json" 42
      (by decide) (by decide) rfl rfl rfl (Or.inl rfl) rfl).2 10⟩

end HttpExtractor
